import Mathlib

/-!
# Verification of the `tran` theming utility

A shallow embedding, in Lean 4, of the core of the `tran` repository:
the hand-rolled line-oriented configuration grammar (`src/config.rs`),
the color type with hex conversion (`src/config.rs`), and the PNG chunk
codec with its Map/Gradient palette transforms and CRC-32 recomputation
(`src/png.rs`, `src/lib.rs`).

Strings are modelled as `List Char` (Rust `&str` is UTF-8; all inputs the
claims exercise are ASCII, where byte indexing and char indexing agree).
Machine integers are modelled as `Nat` with explicit bounds where overflow
or truncation matters.  File I/O is modelled by passing the file contents
as a value; the "write" performed by `recolor_png` is modelled as the
returned buffer.
-/

set_option maxRecDepth 20000

namespace Tran

/-- A Rust string, modelled as its character sequence. -/
abbrev Str := List Char

/-- Characters with the Unicode `White_Space` property, as used by Rust's
`str::trim`. -/
def isRustWhitespace (c : Char) : Bool :=
  (0x9 ≤ c.toNat && c.toNat ≤ 0xd) || c.toNat = 0x20 || c.toNat = 0x85 ||
  c.toNat = 0xa0 || c.toNat = 0x1680 || (0x2000 ≤ c.toNat && c.toNat ≤ 0x200a) ||
  c.toNat = 0x2028 || c.toNat = 0x2029 || c.toNat = 0x202f || c.toNat = 0x205f ||
  c.toNat = 0x3000

/-- Drop leading whitespace, as `str::trim_start`. -/
def dropLeadingWsp (l : Str) : Str := l.dropWhile isRustWhitespace

/-- Drop trailing whitespace, as `str::trim_end`. -/
def dropTrailingWsp (l : Str) : Str := (l.reverse.dropWhile isRustWhitespace).reverse

/-- Rust `str::trim`. -/
def rustTrim (l : Str) : Str := dropTrailingWsp (dropLeadingWsp l)

/-- `core::num::ParseIntError`, restricted to the kinds reachable through
`from_str_radix` on the radixes used by the program. -/
inductive ParseIntError
  | empty
  | invalidDigit
  | posOverflow
  deriving DecidableEq

/-- `ParseIntError::to_string()`. -/
def parseIntErrString : ParseIntError → String
  | .empty => "cannot parse integer from empty string"
  | .invalidDigit => "invalid digit found in string"
  | .posOverflow => "number too large to fit in target type"

/-- `char::to_digit(radix)`: ASCII digits and letters, valid when the value
is below the radix. -/
def digitVal? (radix : Nat) (c : Char) : Option Nat :=
  let v : Option Nat :=
    if '0' ≤ c ∧ c ≤ '9' then some (c.toNat - 48)
    else if 'a' ≤ c ∧ c ≤ 'z' then some (c.toNat - 87)
    else if 'A' ≤ c ∧ c ≤ 'Z' then some (c.toNat - 55)
    else none
  match v with
  | some d => if d < radix then some d else none
  | none => none

/-- The digit-accumulation loop of `from_str_radix` for an unsigned target
type with exclusive upper bound `bound`, with the per-step overflow check. -/
def fromStrRadixDigits (radix bound : Nat) (acc : Nat) : Str → Except ParseIntError Nat
  | [] => .ok acc
  | c :: rest =>
    match digitVal? radix c with
    | none => .error .invalidDigit
    | some d =>
      if bound ≤ acc * radix + d then .error .posOverflow
      else fromStrRadixDigits radix bound (acc * radix + d) rest

/-- Rust `uN::from_str_radix` for an unsigned integer type whose values are
`< bound`: an optional leading `'+'` is allowed, a lone sign is an invalid
digit, `'-'` is rejected by the digit loop. -/
def fromStrRadix (radix bound : Nat) (s : Str) : Except ParseIntError Nat :=
  match s with
  | [] => .error .empty
  | ['+'] => .error .invalidDigit
  | '+' :: rest => fromStrRadixDigits radix bound 0 rest
  | _ => fromStrRadixDigits radix bound 0 s

/-- `src/errors.rs`: the `TranError` enum. -/
inductive TranError
  | configError (msg : String)
  | fileReadError (msg : String)
  | fileNotFoundError (msg : String)
  | writingConfigError (msg : String)
  | pngFormatError (msg : String)
  | unsupportedError (msg : String)
  deriving DecidableEq

/-- `impl From<ParseIntError> for TranError` (src/errors.rs). -/
def TranError.ofParseIntError (e : ParseIntError) : TranError :=
  .configError (parseIntErrString e)

/-- `src/config.rs`: the `Color` struct (three `u8` channels, modelled as
`Nat` together with the validity predicate `Color.valid`). -/
structure Color where
  red : Nat
  green : Nat
  blue : Nat
  deriving DecidableEq

/-- The `u8` range invariant of the Rust `Color` struct's fields. -/
def Color.valid (c : Color) : Prop := c.red < 256 ∧ c.green < 256 ∧ c.blue < 256

instance (c : Color) : Decidable c.valid := by
  unfold Color.valid; infer_instance

/-- `Color::black()`. -/
def Color.black : Color := ⟨0, 0, 0⟩

/-- Rust slice `s[a..b]` on the char model (`str::get(a..b)`; the claims only
exercise ASCII inputs, where the char boundaries always hold). -/
def strSlice (s : Str) (a b : Nat) : Str := (s.drop a).take (b - a)

/-- Builds the color from the three 2-character slices, parsing each through
`u8::from_str_radix(_, 16)` in order, as `Color::try_from_hex_str` does. -/
def colorFromSlices (r g b : Str) : Except TranError Color :=
  match fromStrRadix 16 256 r with
  | .error e => .error (TranError.ofParseIntError e)
  | .ok rv =>
    match fromStrRadix 16 256 g with
    | .error e => .error (TranError.ofParseIntError e)
    | .ok gv =>
      match fromStrRadix 16 256 b with
      | .error e => .error (TranError.ofParseIntError e)
      | .ok bv => .ok ⟨rv, gv, bv⟩

/-- `Color::try_from_hex_str` (src/config.rs lines 99-127): a 6-character
string is sliced at 0..2, 2..4, 4..6; a 7-character string at 1..3, 3..5,
5..7 (the first character is not examined); any other length is an error. -/
def tryFromHexStr (s : Str) : Except TranError Color :=
  if s.length = 6 then
    colorFromSlices (strSlice s 0 2) (strSlice s 2 4) (strSlice s 4 6)
  else if s.length = 7 then
    colorFromSlices (strSlice s 1 3) (strSlice s 3 5) (strSlice s 5 7)
  else
    .error (.configError ("Could not interpret " ++ String.mk s ++ " as hex color"))

/-- The lowercase hexadecimal digits. -/
def hexChars : Str := "0123456789abcdef".toList

/-- The two lowercase hex digits of a `u8` value, as printed by `{:02x}`. -/
def hexPair (n : Nat) : Str := [hexChars.getD (n / 16 % 16) '0', hexChars.getD (n % 16) '0']

/-- `impl Display for Color` (src/config.rs lines 129-133): lowercase
`#rrggbb`. -/
def displayColor (c : Color) : Str :=
  '#' :: (hexPair c.red ++ hexPair c.green ++ hexPair c.blue)

/-- `src/config.rs`: the `Mode` enum. -/
inductive Mode
  | gradient
  | map
  deriving DecidableEq

/-- `impl TryFrom<&str> for Mode`. -/
def modeFromStr (s : Str) : Except TranError Mode :=
  if s = "map".toList then .ok .map
  else if s = "gradient".toList then .ok .gradient
  else .error (.configError ("Unrecognized mode '" ++ String.mk s ++
    "', valid modes are 'map' and 'gradient'"))

/-- `src/config.rs`: the `Section` enum (named `CfgSection` here because
`section` is a Lean keyword). -/
inductive CfgSection
  | mode
  | currentColor
  | colors
  | targetFiles
  | overwrite
  deriving DecidableEq

/-- `impl TryFrom<&str> for Section`. -/
def sectionFromStr (s : Str) : Except TranError CfgSection :=
  if s = "mode".toList then .ok .mode
  else if s = "colors".toList then .ok .colors
  else if s = "target_files".toList then .ok .targetFiles
  else if s = "current_color".toList then .ok .currentColor
  else if s = "overwrite".toList then .ok .overwrite
  else .error (.configError ("Unrecognized section'" ++ String.mk s ++
    "', valid sections are 'mode', 'current_color', 'colors', and 'target_files'"))

/-- `src/config.rs`: the `ColorOrMap` enum. -/
inductive ColorOrMap
  | color (c : Color)
  | map (cs : List Color)
  deriving DecidableEq

/-- `src/config.rs`: the `ColorOrMapVec` enum. -/
inductive ColorOrMapVec
  | color (cs : List Color)
  | map (rows : List (List Color))
  deriving DecidableEq

/-- `src/config.rs`: the `GradientConfig` struct. -/
structure GradientConfig where
  current_color : Color
  colors : List Color
  weights : List Nat
  target_files : List Str
  overwrite : Bool
  deriving DecidableEq

/-- `src/config.rs`: the `MapConfig` struct. -/
structure MapConfig where
  current_color : List Color
  colors : List (List Color)
  weights : List Nat
  target_files : List Str
  overwrite : Bool
  deriving DecidableEq

/-- `src/config.rs`: the `Config` enum. -/
inductive Config
  | gradientConfig (c : GradientConfig)
  | mapConfig (c : MapConfig)
  deriving DecidableEq

/-- The body of the per-index loop of `GradientConfig::get_colors_scaled`
(src/config.rs lines 193-212): colors equal to the current color are
skipped; otherwise the color is pushed `weights[i]` times (1 when the
weight is absent). -/
def scaledGo (cur : Color) (ws : List Nat) : Nat → List Color → List Color
  | _, [] => []
  | i, c :: rest =>
    if c = cur then scaledGo cur ws (i + 1) rest
    else List.replicate (ws.getD i 1) c ++ scaledGo cur ws (i + 1) rest

/-- `GradientConfig::get_colors_scaled`. -/
def GradientConfig.get_colors_scaled (g : GradientConfig) : List Color :=
  scaledGo g.current_color g.weights 0 g.colors

/-- `src/config.rs`: the `ParseState` enum. -/
inductive ParseState
  | start
  | braceOpen
  | braceClosed
  | newLine
  | text
  deriving DecidableEq

/-- The mutable local state of `parse_config`'s scanning loop. -/
structure PSt where
  state : ParseState
  sect : CfgSection
  buff : Str
  mode : Option Mode
  current_color : ColorOrMap
  colors : Option ColorOrMapVec
  target_files : List Str
  overwrite : Bool
  weights : List Nat
  deriving DecidableEq

/-- The initial state of `parse_config` (src/config.rs lines 275-284). -/
def initSt : PSt :=
  ⟨.start, .mode, [], none, .color Color.black, none, [], false, []⟩

/-- Rust `str::split('#')`: at least one token, empty tokens kept. -/
def splitHash : Str → List Str
  | [] => [[]]
  | c :: rest =>
    if c = '#' then [] :: splitHash rest
    else
      match splitHash rest with
      | [] => [[c]]
      | h :: t => (c :: h) :: t

/-- `.collect::<Result<Vec<Color>, TranError>>()` over
`tokens.map(Color::try_from_hex_str)`: stops at the first error. -/
def parseColorList : List Str → Except TranError (List Color)
  | [] => .ok []
  | s :: rest =>
    match tryFromHexStr s with
    | .error e => .error e
    | .ok c =>
      match parseColorList rest with
      | .error e => .error e
      | .ok cs => .ok (c :: cs)

/-- The weight of a `colors` line's first `#`-token:
`usize::from_str_radix(tok, 10).ok().unwrap_or(1)`. -/
def weightOfToken (t : Str) : Nat :=
  match fromStrRadix 10 (2 ^ 64) t with
  | .ok n => n
  | .error _ => 1

/-- The dispatch of a completed content line (the `Text`-state `'\n'` arm of
`parse_config`, src/config.rs lines 316-445).  Note two source details kept
faithfully: the gradient `colors` arm splits on `'#'` and pushes a weight,
and the map-mode `current_color` arm does **not** clear the buffer. -/
def dispatchLine (st : PSt) : Except TranError PSt :=
  match st.sect with
  | .mode =>
    match modeFromStr st.buff with
    | .error e => .error e
    | .ok m => .ok { st with mode := some m, buff := [] }
  | .colors =>
    match st.mode with
    | none => .error (.configError
        "Found color section before mode section. Can't determine color format")
    | some .gradient =>
      match st.colors with
      | some (.map _) => .error (.configError "Inconsistent state")
      | some (.color v) =>
        let parts := splitHash st.buff
        let w := weightOfToken (parts.headD [])
        match parts.drop 1 with
        | [] => .error (.configError "Failed to parse color value")
        | s :: _ =>
          match tryFromHexStr s with
          | .error e => .error e
          | .ok c => .ok { st with colors := some (.color (v ++ [c])),
                                   weights := st.weights ++ [w], buff := [] }
      | none =>
        let parts := splitHash st.buff
        let w := weightOfToken (parts.headD [])
        match parts.drop 1 with
        | [] => .error (.configError "Failed to parse color value")
        | s :: _ =>
          match tryFromHexStr s with
          | .error e => .error e
          | .ok c => .ok { st with colors := some (.color [c]),
                                   weights := st.weights ++ [w], buff := [] }
    | some .map =>
      let parts := splitHash st.buff
      let w := weightOfToken (parts.headD [])
      match parseColorList (parts.drop 1) with
      | .error e => .error e
      | .ok row =>
        match st.colors with
        | some (.color _) => .error (.configError "Inconsistent state")
        | some (.map v) => .ok { st with colors := some (.map (v ++ [row])),
                                         weights := st.weights ++ [w], buff := [] }
        | none => .ok { st with colors := some (.map [row]),
                                weights := st.weights ++ [w], buff := [] }
  | .currentColor =>
    match st.mode with
    | none => .error (.configError
        "Found color section before mode section. Can't determine color format")
    | some .gradient =>
      match tryFromHexStr st.buff with
      | .error e => .error e
      | .ok c => .ok { st with current_color := .color c, buff := [] }
    | some .map =>
      match parseColorList (splitHash st.buff) with
      | .error e => .error e
      | .ok cs => .ok { st with current_color := .map cs }
  | .targetFiles => .ok { st with target_files := st.target_files ++ [st.buff], buff := [] }
  | .overwrite =>
    .ok { st with overwrite := (if st.buff = "true".toList then true else st.overwrite),
                  buff := [] }

/-- The end-of-input flush of `parse_config` (src/config.rs lines 457-546).
It differs from `dispatchLine`: in gradient mode the whole buffer is parsed
as one color and no weight is pushed; in map mode the first `#`-token is a
color, not a weight, and no weight is pushed. -/
def flushEnd (st : PSt) : Except TranError PSt :=
  if st.buff = [] then .ok st
  else
    match st.sect with
    | .mode =>
      match modeFromStr st.buff with
      | .error e => .error e
      | .ok m => .ok { st with mode := some m, buff := [] }
    | .colors =>
      match st.mode with
      | none => .error (.configError
          "Found color section before mode section. Can't determine color format")
      | some .gradient =>
        match st.colors with
        | some (.map _) => .error (.configError "Inconsistent state")
        | some (.color v) =>
          match tryFromHexStr st.buff with
          | .error e => .error e
          | .ok c => .ok { st with colors := some (.color (v ++ [c])), buff := [] }
        | none =>
          match tryFromHexStr st.buff with
          | .error e => .error e
          | .ok c => .ok { st with colors := some (.color [c]), buff := [] }
      | some .map =>
        match parseColorList (splitHash st.buff) with
        | .error e => .error e
        | .ok row =>
          match st.colors with
          | some (.color _) => .error (.configError "Inconsistent state")
          | some (.map v) => .ok { st with colors := some (.map (v ++ [row])), buff := [] }
          | none => .ok { st with colors := some (.map [row]), buff := [] }
    | .currentColor =>
      match st.mode with
      | none => .error (.configError
          "Found color section before mode section. Can't determine color format")
      | some .gradient =>
        match tryFromHexStr st.buff with
        | .error e => .error e
        | .ok c => .ok { st with current_color := .color c, buff := [] }
      | some .map =>
        match parseColorList (splitHash st.buff) with
        | .error e => .error e
        | .ok cs => .ok { st with current_color := .map cs }
    | .targetFiles => .ok { st with target_files := st.target_files ++ [st.buff] }
    | .overwrite =>
      .ok { st with overwrite := (if st.buff = "true".toList then true else st.overwrite) }

/-- One character of `parse_config`'s scanning loop (src/config.rs
lines 286-455). -/
def stepChar (st : PSt) (c : Char) : Except TranError PSt :=
  match st.state with
  | .start =>
    if c = '[' then .ok { st with state := .braceOpen }
    else .error (.configError
      ("Expected config to start with '[', found " ++ String.mk [c]))
  | .braceOpen =>
    if c = ']' then
      match sectionFromStr st.buff with
      | .error e => .error e
      | .ok s => .ok { st with sect := s, buff := [], state := .braceClosed }
    else .ok { st with buff := st.buff ++ [c] }
  | .braceClosed =>
    if c = '\n' then .ok { st with state := .newLine }
    else .error (.configError
      ("Expected newline after section declaration, found " ++ String.mk [c]))
  | .text =>
    if c = '\n' then
      match dispatchLine st with
      | .error e => .error e
      | .ok st' => .ok { st' with state := .newLine }
    else .ok { st with buff := st.buff ++ [c] }
  | .newLine =>
    if c = '[' then .ok { st with state := .braceOpen }
    else .ok { st with buff := st.buff ++ [c], state := .text }

/-- Runs the scanning loop over the remaining characters. -/
def runSteps (st : PSt) : Str → Except TranError PSt
  | [] => .ok st
  | c :: rest =>
    match stepChar st c with
    | .error e => .error e
    | .ok st' => runSteps st' rest

/-- The final `match` of `parse_config` (src/config.rs lines 548-572):
missing mode is reported before missing colors, mismatched variants are an
inconsistent state. -/
def assemble (st : PSt) : Except TranError Config :=
  match st.mode with
  | none => .error (.configError "Missing mode")
  | some m =>
    match st.colors with
    | none => .error (.configError "Missing colors")
    | some cv =>
      match m, st.current_color, cv with
      | .gradient, .color cc, .color cs =>
        .ok (.gradientConfig ⟨cc, cs, st.weights, st.target_files, st.overwrite⟩)
      | .map, .map cc, .map cs =>
        .ok (.mapConfig ⟨cc, cs, st.weights, st.target_files, st.overwrite⟩)
      | _, _, _ => .error (.configError "Inconsistent state")

/-- `parse_config` (src/config.rs lines 272-573), on the file contents: the
contents are trimmed, scanned character by character, the last unterminated
line is flushed, and the pieces are assembled. -/
def parseConfig (contents : Str) : Except TranError Config :=
  match runSteps initSt (rustTrim contents) with
  | .error e => .error e
  | .ok st =>
    match flushEnd st with
    | .error e => .error e
    | .ok st' => assemble st'

/-- Concatenation of a list of lists (used to model repeated `writeln!`). -/
def concatAll {α : Type} : List (List α) → List α
  | [] => []
  | l :: rest => l ++ concatAll rest

/-- The newline appended by `writeln!`. -/
def nl : Str := ['\n']

/-- Rust `bool`'s `Display`. -/
def boolStr (b : Bool) : Str := if b then "true".toList else "false".toList

/-- The gradient branch of `write_config` (src/config.rs lines 580-599). -/
def writeGradient (g : GradientConfig) : Str :=
  "[mode]".toList ++ nl ++ "gradient".toList ++ nl ++
  "[overwrite]".toList ++ nl ++ boolStr g.overwrite ++ nl ++
  "[current_color]".toList ++ nl ++ displayColor g.current_color ++ nl ++
  "[colors]".toList ++ nl ++ concatAll (g.colors.map (fun c => displayColor c ++ nl)) ++
  "[target_files]".toList ++ nl ++ concatAll (g.target_files.map (fun t => t ++ nl))

/-- The map branch of `write_config` (src/config.rs lines 600-625).  The
source writes the literal text `"gradient"` as the mode here as well. -/
def writeMap (m : MapConfig) : Str :=
  "[mode]".toList ++ nl ++ "gradient".toList ++ nl ++
  "[overwrite]".toList ++ nl ++ boolStr m.overwrite ++ nl ++
  "[current_color]".toList ++ nl ++ concatAll (m.current_color.map displayColor) ++ nl ++
  "[colors]".toList ++ nl ++
    concatAll (m.colors.map (fun row => concatAll (row.map displayColor) ++ nl)) ++
  "[target_files]".toList ++ nl ++ concatAll (m.target_files.map (fun t => t ++ nl))

/-- `write_config` (src/config.rs lines 575-631), as the text written to the
target file. -/
def writeConfig : Config → Str
  | .gradientConfig g => writeGradient g
  | .mapConfig m => writeMap m

/-! ## The PNG chunk codec (src/png.rs, src/lib.rs)

File bytes are modelled as `List Nat`; every byte of a real file is `< 256`,
but the definitions are total over `Nat`. -/

/-- An RGB palette triple. -/
abbrev Triple := Nat × Nat × Nat

/-- `src/lib.rs`: the `ColorMap` struct (two `&str` hex colors). -/
structure ColorMap where
  new_color : Str
  current_color : Str
  deriving DecidableEq

/-- `src/lib.rs`: the `ColorTransform` enum. -/
inductive ColorTransform
  | map (maps : List ColorMap)
  | gradient (primary background : Str)
  deriving DecidableEq

/-- `hex_to_bytes` (src/lib.rs lines 64-73): parses `&hex[1..]` as a `u32`
and extracts the three channel bytes by mask and shift.  (Rust panics on the
empty string via the `[1..]` slice; the model's `drop 1` instead reaches the
empty-string parse error.  No caller passes an empty string.) -/
def hexToBytes (hex : Str) : Except TranError Triple :=
  match fromStrRadix 16 (2 ^ 32) (hex.drop 1) with
  | .error _ => .error (.configError ("Color hex " ++ String.mk hex ++ " is invalid"))
  | .ok bytes =>
    .ok ((bytes &&& 0xFF0000) >>> (2 * 8), (bytes &&& 0x00FF00) >>> 8, bytes &&& 0x0000FF)

/-- `ColorMap::new_color_bytes` (src/lib.rs lines 32-42); its body is the
same mask-and-shift extraction as `hex_to_bytes`. -/
def ColorMap.new_color_bytes (m : ColorMap) : Except TranError Triple :=
  hexToBytes m.new_color

/-- `ColorMap::current_color_bytes` (src/lib.rs lines 43-53). -/
def ColorMap.current_color_bytes (m : ColorMap) : Except TranError Triple :=
  hexToBytes m.current_color

/-- The 8-byte PNG signature. -/
def PNG_FORMAT_IDENTIFIER : List Nat := [0x89, 0x50, 0x4e, 0x47, 0x0d, 0x0a, 0x1a, 0x0a]

/-- The `IHDR` chunk tag. -/
def IHDRtag : Nat := 0x49484452

/-- The `IEND` chunk tag. -/
def IENDtag : Nat := 0x49454E44

/-- The `PLTE` chunk tag. -/
def PLTEtag : Nat := 0x504C5445

/-- `src/png.rs`: the `PngColorType` enum. -/
inductive PngColorType
  | grayscale
  | rgb
  | palette
  | grayscaleAlpha
  | rgba
  deriving DecidableEq

/-- `impl TryFrom<u8> for PngColorType` (src/png.rs lines 21-37). -/
def pngColorTypeFromByte (v : Nat) : Except TranError PngColorType :=
  if v = 0 then .ok .grayscale
  else if v = 2 then .ok .rgb
  else if v = 3 then .ok .palette
  else if v = 4 then .ok .grayscaleAlpha
  else if v = 6 then .ok .rgba
  else .error (.fileReadError ("PNG Color type is invalid " ++ toString v))

/-- `src/png.rs`: the `Chunk` struct.  `chunk_data` and `crc4` are modelled
as the byte values the Rust mutable views point at. -/
structure Chunk where
  length : Nat
  chunk_type : Nat
  chunk_data : List Nat
  crc4 : List Nat
  deriving DecidableEq

/-- The big-endian accumulation of `read_chunk`'s length/type fields: the
available bytes (up to 4) are shifted by `8 * (3 - index)` and or-ed. -/
def beCombineGo (i : Nat) : List Nat → Nat
  | [] => 0
  | b :: rest => (b <<< (8 * (3 - i))) ||| beCombineGo (i + 1) rest

/-- `read_chunk` (src/png.rs lines 54-110): up to 4 bytes of length (an
empty read is the "reducing" error), up to 4 bytes of type, `length` data
bytes and 4 CRC bytes ("Ran out of bytes" when the stream is short). -/
def readChunk (png : List Nat) : Except TranError (Chunk × List Nat) :=
  let lenBytes := png.take 4
  if lenBytes = [] then
    .error (.fileReadError "Something went wrong while reducing length")
  else
    let len := beCombineGo 0 lenBytes
    let rest1 := png.drop 4
    let tyBytes := rest1.take 4
    if tyBytes = [] then
      .error (.fileReadError "Something went wrong while reducing chunk type")
    else
      let ty := beCombineGo 0 tyBytes
      let rest2 := rest1.drop 4
      if rest2.length < len then .error (.fileReadError "Ran out of bytes")
      else
        let rest3 := rest2.drop len
        if rest3.length < 4 then .error (.fileReadError "Ran out of bytes")
        else .ok (⟨len, ty, rest2.take len, rest3.take 4⟩, rest3.drop 4)

/-- The PNG-signature loop of `recolor_png` (src/png.rs lines 127-143):
compares the first 8 bytes to the identifier, erroring at the first
mismatch or on a short file. -/
def checkSigGo (src : String) : List Nat → List Nat → Except TranError (List Nat)
  | [], rest => .ok rest
  | _ :: _, [] => .error (.fileReadError (src ++ " is not a png as png next failed"))
  | e :: es, b :: bs =>
    if b = e then checkSigGo src es bs
    else .error (.fileReadError (src ++ " is not a png as " ++
      String.mk (Nat.toDigits 16 b) ++ " != " ++ String.mk (Nat.toDigits 16 e)))

/-- `src/png.rs`: the `GeneratedColorMap` struct. -/
structure GeneratedColorMap where
  old_colors : Triple
  new_colors : Triple
  deriving DecidableEq

/-- The inner loop of the Map transform for one `trans` entry (src/png.rs
lines 200-210): every collected triple equal to the pair's current color is
overwritten with the pair's new color.  The hex parses happen inside the
loop body exactly as in the source, so an unparsable current color errors
only when at least one triple is visited, and an unparsable new color only
when a triple matches. -/
def applyPairGo (p : ColorMap) : List Triple → Except TranError (List Triple)
  | [] => .ok []
  | t :: ts =>
    match p.current_color_bytes with
    | .error e => .error e
    | .ok old =>
      if t = old then
        match p.new_color_bytes with
        | .error e => .error e
        | .ok nw =>
          match applyPairGo p ts with
          | .error e => .error e
          | .ok rest => .ok (nw :: rest)
      else
        match applyPairGo p ts with
        | .error e => .error e
        | .ok rest => .ok (t :: rest)

/-- The Map transform (src/png.rs lines 199-211): the outer loop runs over
the pairs, each pass rewriting the whole collected palette. -/
def applyMapTransform : List ColorMap → List Triple → Except TranError (List Triple)
  | [], cs => .ok cs
  | p :: ps, cs =>
    match applyPairGo p cs with
    | .error e => .error e
    | .ok cs' => applyMapTransform ps cs'

/-- Channel sum, the brightness proxy of the gradient sort. -/
def sumT (t : Triple) : Nat := t.1 + t.2.1 + t.2.2

/-- Insertion of one triple into a list sorted descending by channel sum. -/
def insertDesc (t : Triple) : List Triple → List Triple
  | [] => [t]
  | h :: rest => if sumT h ≤ sumT t then t :: h :: rest else h :: insertDesc t rest

/-- `colors.sort_unstable_by(descending channel sum)` (src/png.rs
lines 217-220), modelled by insertion sort.  The source sort is unstable,
so tie order is unspecified there; the claims only evaluate palettes with
pairwise distinct channel sums, where every sort agrees. -/
def sortBySumDesc (l : List Triple) : List Triple := l.foldr insertDesc []

/-- A surrogate for the `f64` values flowing through the gradient
interpolation: the nonnegative rational `num / den` (kept unnormalized;
`den` is nonzero whenever an operation below constructs a value), positive
infinity, or NaN.  Within the gradient loop every operand is derived from
nonnegative `u8` channels, so these cases are exhaustive and no negative
value or negative infinity can arise.  Finite division and multiplication
are modelled exactly; IEEE `f64` rounds them, so the model coincides with
the source exactly on operations whose results are exactly representable
doubles — the theorems below only evaluate such operations (infinity
arithmetic, and products/quotients of small integers by exact halves). -/
inductive F
  | fin (num den : Nat)
  | inf
  | nan
  deriving DecidableEq

/-- `f64` division on the surrogate (IEEE: `x / 0` is `inf` for `x > 0`,
`0 / 0` is NaN). -/
def fdiv : F → F → F
  | .nan, _ => .nan
  | _, .nan => .nan
  | .fin a b, .fin c d => if c = 0 then (if a = 0 then .nan else .inf) else .fin (a * d) (b * c)
  | .inf, .fin _ _ => .inf
  | .fin _ _, .inf => .fin 0 1
  | .inf, .inf => .nan

/-- `f64` multiplication on the surrogate (IEEE: `0 * inf` is NaN). -/
def fmul : F → F → F
  | .nan, _ => .nan
  | _, .nan => .nan
  | .fin a b, .fin c d => .fin (a * c) (b * d)
  | .inf, .fin c _ => if c = 0 then .nan else .inf
  | .fin a _, .inf => if a = 0 then .nan else .inf
  | .inf, .inf => .inf

/-- Rust's saturating `as u8` cast from `f64`: NaN casts to 0, nonnegative
values are truncated toward zero and clamped to `0..=255`. -/
def fToU8 : F → Nat
  | .nan => 0
  | .inf => 255
  | .fin a b => min 255 (a / b)

/-- A `u8` channel promoted to `f64`. -/
def natF (n : Nat) : F := .fin n 1

/-- The interpolation loop of the Gradient transform (src/png.rs
lines 230-257): each next new color is the previous new color scaled,
per channel, by `next_old.channel / previous_old.channel` and truncated. -/
def gradientMapGo : Triple → Triple → List Triple → List GeneratedColorMap
  | _, _, [] => []
  | prevOld, prevNew, nextOld :: rest =>
    let red_diff := fdiv (natF nextOld.1) (natF prevOld.1)
    let grenn_diff := fdiv (natF nextOld.2.1) (natF prevOld.2.1)
    let blue_diff := fdiv (natF nextOld.2.2) (natF prevOld.2.2)
    let nextNew : Triple :=
      (fToU8 (fmul (natF prevNew.1) red_diff),
       fToU8 (fmul (natF prevNew.2.1) grenn_diff),
       fToU8 (fmul (natF prevNew.2.2) blue_diff))
    ⟨nextOld, nextNew⟩ :: gradientMapGo nextOld nextNew rest

/-- The Gradient transform (src/png.rs lines 213-271): sort the collected
triples descending by channel sum, seed the brightest with `primary`,
interpolate forward, then apply the generated old→new entries to every
collected triple exactly as the Map application loop does (outer loop over
entries), so each triple's final value is the left fold of the entries over
its original value. -/
def applyGradientTransform (primary : Str) (_background : Str) (cs : List Triple) :
    Except TranError (List Triple) :=
  match sortBySumDesc cs with
  | [] => .error (.pngFormatError "No colors")
  | first :: rest =>
    match hexToBytes primary with
    | .error e => .error e
    | .ok prim =>
      let gm : List GeneratedColorMap := ⟨first, prim⟩ :: gradientMapGo first prim rest
      .ok (cs.map (fun t =>
        gm.foldl (fun t e => if t = e.old_colors then e.new_colors else t) t))

/-- Dispatch on the transform (src/png.rs lines 198-272). -/
def applyTransform : ColorTransform → List Triple → Except TranError (List Triple)
  | .map pairs, cs => applyMapTransform pairs cs
  | .gradient p b, cs => applyGradientTransform p b cs

/-- Groups a byte list into consecutive RGB triples, dropping a short tail
(the palette loop reads `length / 3` triples). -/
def toTriples : List Nat → List Triple
  | r :: g :: b :: rest => (r, g, b) :: toTriples rest
  | _ => []

/-- The black/white exclusion of the palette collection loop (src/png.rs
lines 189-193). -/
def isBW (t : Triple) : Bool := (t = ((0, 0, 0) : Triple)) || (t = ((255, 255, 255) : Triple))

/-- The collected palette triples: every triple in order, except pure black
and pure white. -/
def collectColors (ts : List Triple) : List Triple := ts.filter (fun t => !isBW t)

/-- Writes the transformed triples back through the collected mutable
references: black/white positions keep their bytes, the other positions
take the transformed values in order. -/
def writeBack : List Triple → List Triple → List Triple
  | [], _ => []
  | t :: ts, news =>
    if isBW t then t :: writeBack ts news
    else
      match news with
      | [] => t :: writeBack ts []
      | n :: ns => n :: writeBack ts ns

/-- Flattens triples back to bytes. -/
def flattenTriples : List Triple → List Nat
  | [] => []
  | t :: ts => t.1 :: t.2.1 :: t.2.2 :: flattenTriples ts

/-- The in-place palette mutation of a `PLTE` chunk's data (src/png.rs
lines 176-272): read `length / 3` triples, collect the non-black/white
ones, run the transform, and write the results back; trailing bytes beyond
the last whole triple are untouched. -/
def processPaletteData (t : ColorTransform) (data : List Nat) : Except TranError (List Nat) :=
  let ts := toTriples data
  match applyTransform t (collectColors ts) with
  | .error e => .error e
  | .ok news => .ok (flattenTriples (writeBack ts news) ++ data.drop (3 * (data.length / 3)))

/-- One bit-round of the CRC table construction (src/png.rs lines 316-322):
`c >> 1`, xored with the polynomial when the low bit was set. -/
def crcRound (c : Nat) : Nat :=
  if c % 2 = 1 then 0xEDB88320 ^^^ c / 2 else c / 2

/-- An entry of the 256-entry CRC table (src/png.rs lines 312-324): eight
bit-rounds applied to the index. -/
def crcTableEntry (n : Nat) : Nat := crcRound^[8] n

/-- The per-byte accumulation loop of `crc` (src/png.rs lines 326-329). -/
def crcGo (c : Nat) : List Nat → Nat
  | [] => c
  | b :: rest => crcGo (crcTableEntry ((c ^^^ b) &&& 0xff) ^^^ (c >>> 8)) rest

/-- `crc` (src/png.rs lines 311-331): table-driven, initial register
`0xffffffff`, final value xored with `0xffffffff`. -/
def crc (buf : List Nat) : Nat := crcGo 0xffffffff buf ^^^ 0xffffffff

/-- The four bytes the codec derives from a `u32` by mask and shift, used
both for the chunk type bytes fed to the CRC (src/png.rs lines 276-285)
and for the CRC bytes written back (lines 289-293). -/
def be32 (v : Nat) : List Nat :=
  [(v &&& 0xFF000000) >>> (3 * 8), (v &&& 0x00FF0000) >>> (2 * 8),
   (v &&& 0x0000FF00) >>> 8, v &&& 0x000000FF]

/-- The bytes a processed chunk contributes to the output buffer: a `PLTE`
chunk keeps its 8 raw length/type bytes and gets mutated data plus a
recomputed CRC over `[type bytes ++ data]` (src/png.rs lines 175-294);
every other chunk passes through unchanged. -/
def chunkOut (t : ColorTransform) (raw8 : List Nat) (ch : Chunk) :
    Except TranError (List Nat) :=
  if ch.chunk_type = PLTEtag then
    match processPaletteData t ch.chunk_data with
    | .error e => .error e
    | .ok newData => .ok (raw8 ++ newData ++ be32 (crc (be32 ch.chunk_type ++ newData)))
  else .ok (raw8 ++ ch.chunk_data ++ ch.crc4)

/-- The chunk loop of the `Palette` branch (src/png.rs lines 173-298),
running until `IEND`; `acc` is the already-processed prefix of the buffer
and the bytes after `IEND` pass through untouched.  `fuel` only serves
termination: every successful `read_chunk` consumes at least one byte, so
the initial `rem.length + 1` can never run out before `IEND` or an error;
the fuel-exhaustion arm repeats `read_chunk`'s empty-stream error. -/
def paletteLoop (t : ColorTransform) : Nat → List Nat → List Nat → Except TranError (List Nat)
  | 0, _, _ => .error (.fileReadError "Something went wrong while reducing length")
  | fuel + 1, acc, rem =>
    match readChunk rem with
    | .error e => .error e
    | .ok (ch, rest) =>
      match chunkOut t (rem.take 8) ch with
      | .error e => .error e
      | .ok outBytes =>
        if ch.chunk_type = IENDtag then .ok (acc ++ outBytes ++ rest)
        else paletteLoop t fuel (acc ++ outBytes) rest

/-- `recolor_png` (src/png.rs lines 117-309) on the source file's bytes.
`ok none` is a success that writes nothing (grayscale / grayscale-alpha);
`ok (some out)` is a success writing the whole buffer `out` once, after the
chunk loop reached `IEND`; `error e` aborts with nothing written (the only
`fs::write` is after the loop).  The file-existence pre-check is I/O and is
outside the model. -/
def recolorPng (src : String) (file : List Nat) (t : ColorTransform) :
    Except TranError (Option (List Nat)) :=
  match checkSigGo src PNG_FORMAT_IDENTIFIER file with
  | .error e => .error e
  | .ok rest =>
    match readChunk rest with
    | .error e => .error e
    | .ok (ihdr, rest2) =>
      if ihdr.chunk_type = IHDRtag then
        match ihdr.chunk_data.get? 9 with
        | none => .error (.fileReadError "No color type")
        | some ctByte =>
          match pngColorTypeFromByte ctByte with
          | .error e => .error e
          | .ok ct =>
            match ct with
            | .grayscale | .grayscaleAlpha => .ok none
            | .rgb | .rgba => .error (.fileReadError "Can't decompress png of type RGB")
            | .palette =>
              match paletteLoop t (rest2.length + 1)
                  (file.take (file.length - rest2.length)) rest2 with
              | .error e => .error e
              | .ok out => .ok (some out)
      else
        .error (.fileReadError (src ++ " is not a png as it does not contain IHDR chunk " ++
          String.mk (Nat.toDigits 16 ihdr.chunk_type) ++ " != " ++
          String.mk (Nat.toDigits 16 IHDRtag)))

/-- The write trace of a `recolor_png` result: the buffers passed to
`fs::write`. -/
def writesOf (r : Except TranError (Option (List Nat))) : List (List Nat) :=
  match r with
  | .ok (some b) => [b]
  | _ => []

/-! ## Specification-side definitions and fixtures used by the theorems -/

/-- Success test on an `Except` value. -/
def isOkE {ε α : Type} : Except ε α → Bool
  | .ok _ => true
  | .error _ => false

/-- Decidable equality of `Except` values. -/
def exceptDecEqFn {ε α : Type} [DecidableEq ε] [DecidableEq α] :
    (x y : Except ε α) → Decidable (x = y)
  | .ok a, .ok b => decidable_of_iff (a = b) ⟨congrArg Except.ok, fun hh => by injection hh⟩
  | .error a, .error b =>
    decidable_of_iff (a = b) ⟨congrArg Except.error, fun hh => by injection hh⟩
  | .ok _, .error _ => .isFalse (fun hh => Except.noConfusion hh)
  | .error _, .ok _ => .isFalse (fun hh => Except.noConfusion hh)

instance {ε α : Type} [DecidableEq ε] [DecidableEq α] : DecidableEq (Except ε α) :=
  exceptDecEqFn

/-- Modelled from the spec: the per-byte loop of the reference IEEE CRC-32,
"polynomial 0xEDB88320 applied LSB-first per byte": the byte is xored into
the register and eight bit-rounds are applied directly (no table). -/
def crcSpecGo (c : Nat) : List Nat → Nat
  | [] => c
  | b :: rest => crcSpecGo (crcRound^[8] (c ^^^ b)) rest

/-- Modelled from the spec: the reference IEEE CRC-32 with initial register
`0xFFFFFFFF` and final xor `0xFFFFFFFF`. -/
def crcSpec (buf : List Nat) : Nat := crcSpecGo 0xffffffff buf ^^^ 0xffffffff

/-- The per-index comprehension form of `get_colors_scaled`: color `i`
contributes nothing when it equals the current color and `weights[i]`
(default 1) copies of itself otherwise. -/
def scaledSpec (g : GradientConfig) : List Color :=
  concatAll ((List.range g.colors.length).map (fun j =>
    if g.colors.getD j Color.black = g.current_color then []
    else List.replicate (g.weights.getD j 1) (g.colors.getD j Color.black)))

/-- One exact-match substitution step against a resolved `(old, new)` pair. -/
def stepOld (t : Triple) (q : Triple × Triple) : Triple :=
  if t = q.1 then q.2 else t

/-- The value a collected triple ends with after the Map transform's outer
loop over the pairs: the left fold of exact-match substitution. -/
def valueFold (qs : List (Triple × Triple)) (t : Triple) : Triple :=
  qs.foldl stepOld t

/-- `p`'s two hex colors resolve to the byte triples `q = (old, new)`. -/
def pairResolvedB (p : ColorMap) (q : Triple × Triple) : Bool :=
  decide (p.current_color_bytes = .ok q.1) && decide (p.new_color_bytes = .ok q.2)

/-- Pointwise resolution of a pair list. -/
def pairsResolvedB : List ColorMap → List (Triple × Triple) → Bool
  | [], [] => true
  | p :: ps, q :: qs => pairResolvedB p q && pairsResolvedB ps qs
  | _, _ => false

/-- Modelled from the spec: "for every palette triple, scan the list for an
exact channel-wise match against `old`; on the first match, overwrite the
triple with `new`'s channels" — first match wins, one substitution per
triple, no black/white exclusion. -/
def specMapFirstMatch (qs : List (Triple × Triple)) (t : Triple) : Triple :=
  match qs.find? (fun q => decide (q.1 = t)) with
  | some q => q.2
  | none => t

/-- Modelled from the spec: the claimed palette-level Map semantics. -/
def specMapPalette (qs : List (Triple × Triple)) (data : List Nat) : List Nat :=
  flattenTriples ((toTriples data).map (specMapFirstMatch qs)) ++
    data.drop (3 * (data.length / 3))

/-- The chained-substitution pair list of the C2 counterexample:
`(old #010101 → new #020202)` then `(old #020202 → new #030303)`. -/
def c2Pairs : List ColorMap :=
  [⟨"#020202".toList, "#010101".toList⟩, ⟨"#030303".toList, "#020202".toList⟩]

/-- The resolved byte pairs of `c2Pairs`. -/
def c2Qs : List (Triple × Triple) := [((1, 1, 1), (2, 2, 2)), ((2, 2, 2), (3, 3, 3))]

/-- An ASCII hex digit (either case). -/
def isHexDigitChar (c : Char) : Bool := (digitVal? 16 c).isSome

/-- Modelled from the spec: "a well-formed 6-hex-digit string, optionally
preceded by `'#'`". -/
def specWellFormedHex (s : Str) : Bool :=
  (s.length = 6 && s.all isHexDigitChar) ||
  (s.length = 7 && s.headD ' ' = '#' && (s.drop 1).all isHexDigitChar)

/-- The three 2-character groups of (the last 6 characters of) a hex color
string all parse as `u8` hex values. -/
def hexGroupsOkB (t : Str) : Bool :=
  isOkE (fromStrRadix 16 256 (t.take 2)) &&
  isOkE (fromStrRadix 16 256 ((t.drop 2).take 2)) &&
  isOkE (fromStrRadix 16 256 ((t.drop 4).take 2))

/-- A target-files entry as the parser itself can produce it: nonempty, not
starting with `'['`, and newline-free after its first character. -/
def targetEntryOkB : Str → Bool
  | [] => false
  | c :: rest => decide (c ≠ '[') && rest.all (fun d => decide (d ≠ '\n'))

/-- The written config's trailing trim is harmless: either there is no
target file, or the last entry does not end in whitespace. -/
def lastEntryOkB (ts : List Str) : Bool :=
  match ts.getLast? with
  | none => true
  | some e =>
    match e.getLast? with
    | none => false
    | some c => !isRustWhitespace c

/-- All channels of all colors are in `u8` range. -/
def colorsValidB (cs : List Color) : Bool := cs.all (fun c => decide c.valid)

/-- A minimal grayscale PNG (color type 0): signature, IHDR, dummy CRC. -/
def gsFixture : List Nat :=
  PNG_FORMAT_IDENTIFIER ++ [0, 0, 0, 13] ++ [0x49, 0x48, 0x44, 0x52] ++
  [0, 0, 0, 1, 0, 0, 0, 1, 8, 0, 0, 0, 0] ++ [1, 2, 3, 4]

/-- A minimal RGB PNG (color type 2). -/
def rgbFixture : List Nat :=
  PNG_FORMAT_IDENTIFIER ++ [0, 0, 0, 13] ++ [0x49, 0x48, 0x44, 0x52] ++
  [0, 0, 0, 1, 0, 0, 0, 1, 8, 2, 0, 0, 0] ++ [1, 2, 3, 4]

/-- A minimal palette PNG (color type 3) with a one-entry palette `(1,2,3)`
and an IEND chunk. -/
def plteFixture : List Nat :=
  PNG_FORMAT_IDENTIFIER ++ [0, 0, 0, 13] ++ [0x49, 0x48, 0x44, 0x52] ++
  [0, 0, 0, 1, 0, 0, 0, 1, 8, 3, 0, 0, 0] ++ [1, 2, 3, 4] ++
  [0, 0, 0, 3] ++ [0x50, 0x4C, 0x54, 0x45] ++ [1, 2, 3] ++ [9, 9, 9, 9] ++
  [0, 0, 0, 0] ++ [0x49, 0x45, 0x4E, 0x44] ++ [0xAE, 0x42, 0x60, 0x82]

/-- The buffer `recolor_png` writes for `plteFixture` under the empty Map
transform: identical except the `PLTE` CRC bytes, recomputed over the
(unchanged) palette. -/
def plteFixtureOut : List Nat :=
  PNG_FORMAT_IDENTIFIER ++ [0, 0, 0, 13] ++ [0x49, 0x48, 0x44, 0x52] ++
  [0, 0, 0, 1, 0, 0, 0, 1, 8, 3, 0, 0, 0] ++ [1, 2, 3, 4] ++
  [0, 0, 0, 3] ++ [0x50, 0x4C, 0x54, 0x45] ++ [1, 2, 3] ++ [13, 135, 100, 213] ++
  [0, 0, 0, 0] ++ [0x49, 0x45, 0x4E, 0x44] ++ [0xAE, 0x42, 0x60, 0x82]

/-- The spec's weighted-scaling example: colors `[A, B, C]` with weights
`[1, 3, 1]` and current color `A` (with `A = #010101`, `B = #020202`,
`C = #030303`). -/
def c7Example : GradientConfig :=
  ⟨⟨1, 1, 1⟩, [⟨1, 1, 1⟩, ⟨2, 2, 2⟩, ⟨3, 3, 3⟩], [1, 3, 1], [], false⟩

/-!
# Theorems
-/

/-! ## Hex parsing and display helpers -/

theorem fromStrRadixDigits_lt {radix bound : Nat} :
    ∀ (s : Str) (acc : Nat), acc < bound →
      ∀ v, fromStrRadixDigits radix bound acc s = .ok v → v < bound
  | [], acc, h, v, hv => by
    simp only [fromStrRadixDigits, Except.ok.injEq] at hv; omega
  | c :: rest, acc, h, v, hv => by
    rw [fromStrRadixDigits] at hv
    split at hv
    · exact absurd hv (by simp)
    · split at hv
      · exact absurd hv (by simp)
      · exact fromStrRadixDigits_lt rest _ (by omega) v hv

theorem fromStrRadix_lt {radix bound : Nat} (hb : 0 < bound) :
    ∀ s v, fromStrRadix radix bound s = .ok v → v < bound := by
  intro s v h
  unfold fromStrRadix at h
  split at h
  · exact absurd h (by simp)
  · exact absurd h (by simp)
  · exact fromStrRadixDigits_lt _ _ hb _ h
  · exact fromStrRadixDigits_lt _ _ hb _ h

theorem hexPair_parse : ∀ n : Nat, n < 256 → fromStrRadix 16 256 (hexPair n) = .ok n := by
  decide

theorem colorFromSlices_ok (r g b : Str) (c : Color)
    (h : colorFromSlices r g b = .ok c) : c.valid := by
  unfold colorFromSlices at h
  split at h
  next e heq => exact absurd h (by simp)
  next rv heq =>
    split at h
    next e heq2 => exact absurd h (by simp)
    next gv heq2 =>
      split at h
      next e heq3 => exact absurd h (by simp)
      next bv heq3 =>
        injection h with h'
        subst h'
        exact ⟨fromStrRadix_lt (by omega) _ _ heq, fromStrRadix_lt (by omega) _ _ heq2,
          fromStrRadix_lt (by omega) _ _ heq3⟩

theorem tryFromHexStr_valid (s : Str) (c : Color) (h : tryFromHexStr s = .ok c) :
    c.valid := by
  unfold tryFromHexStr at h
  split at h
  · exact colorFromSlices_ok _ _ _ _ h
  · split at h
    · exact colorFromSlices_ok _ _ _ _ h
    · exact absurd h (by simp)

theorem tryFromHexStr_displayColor (c : Color) (h : c.valid) :
    tryFromHexStr (displayColor c) = .ok c := by
  obtain ⟨r, g, b⟩ := c
  obtain ⟨h1, h2, h3⟩ := h
  show colorFromSlices (hexPair r) (hexPair g) (hexPair b) = .ok ⟨r, g, b⟩
  unfold colorFromSlices
  rw [hexPair_parse r h1, hexPair_parse g h2, hexPair_parse b h3]

theorem isOkE_colorFromSlices (r g b : Str) :
    isOkE (colorFromSlices r g b) =
      (isOkE (fromStrRadix 16 256 r) && isOkE (fromStrRadix 16 256 g) &&
       isOkE (fromStrRadix 16 256 b)) := by
  unfold colorFromSlices
  cases fromStrRadix 16 256 r <;> cases fromStrRadix 16 256 g <;>
    cases fromStrRadix 16 256 b <;> simp [isOkE]

theorem hexChars_getD_mem (k : Nat) : hexChars.getD k '0' ∈ hexChars := by
  by_cases hk : k < 16
  · interval_cases k <;> decide
  · rw [List.getD_eq_default]
    · decide
    · rw [show hexChars.length = 16 from rfl]; omega

theorem mem_hexPair {ch : Char} {n : Nat} (h : ch ∈ hexPair n) : ch ∈ hexChars := by
  simp only [hexPair, List.mem_cons, List.not_mem_nil, or_false] at h
  rcases h with h | h <;> (subst h; exact hexChars_getD_mem _)

/-! ## C9: `Color` hex constructibility, display form, and stability -/

/-- C9 (corrected).  `try_from_hex_str` accepts exactly the strings of
length 6, or of length 7 with an arbitrary (unchecked) first character,
whose three 2-character groups over the last 6 characters parse as `u8`
hex values; the display form of a valid color is `'#'` followed by six
lowercase hex digits; and every parse result re-parses from its display
form to the same color, so display/parse is stable from the first cycle. -/
theorem c9_color_hex_amended :
    (∀ s : Str, isOkE (tryFromHexStr s) =
      ((decide (s.length = 6) && hexGroupsOkB s) ||
       (decide (s.length = 7) && hexGroupsOkB (s.drop 1))))
    ∧ (∀ c : Color, c.valid →
        (displayColor c).length = 7 ∧ (displayColor c).headD ' ' = '#' ∧
        ∀ ch ∈ (displayColor c).drop 1, ch ∈ hexChars)
    ∧ (∀ s c, tryFromHexStr s = .ok c → tryFromHexStr (displayColor c) = .ok c) := by
  refine ⟨?_, ?_, ?_⟩
  · intro s
    by_cases h6 : s.length = 6
    · unfold tryFromHexStr
      rw [if_pos h6, isOkE_colorFromSlices]
      simp [h6, hexGroupsOkB, strSlice, List.drop_drop, Bool.and_assoc]
    · by_cases h7 : s.length = 7
      · unfold tryFromHexStr
        rw [if_neg h6, if_pos h7, isOkE_colorFromSlices]
        simp [h6, h7, hexGroupsOkB, strSlice, List.drop_drop, Bool.and_assoc]
      · simp [tryFromHexStr, h6, h7, isOkE]
  · rintro ⟨r, g, b⟩ ⟨h1, h2, h3⟩
    refine ⟨rfl, rfl, ?_⟩
    intro ch hch
    rw [show (displayColor ⟨r, g, b⟩).drop 1 = hexPair r ++ (hexPair g ++ hexPair b)
      from rfl] at hch
    simp only [List.mem_append] at hch
    rcases hch with h | h | h <;> exact mem_hexPair h
  · intro s c h
    exact tryFromHexStr_displayColor c (tryFromHexStr_valid s c h)

/-- C9 counterexample: `"Zaabbcc"` is not a well-formed 6-hex-digit string
optionally preceded by `'#'`, yet `try_from_hex_str` accepts it (the first
character of a 7-character input is never examined). -/
theorem c9_color_hex_counterexample :
    specWellFormedHex "Zaabbcc".toList = false
    ∧ tryFromHexStr "Zaabbcc".toList = .ok ⟨170, 187, 204⟩ := by
  decide

theorem c9_color_hex_witness :
    tryFromHexStr (displayColor ⟨170, 187, 204⟩) = .ok ⟨170, 187, 204⟩ :=
  c9_color_hex_amended.2.2 "#aabbcc".toList ⟨170, 187, 204⟩ (by decide)

/-! ## C10: map-mode `current_color` rows and the leading `'#'` -/

theorem splitHash_cons_hash (rest : Str) : splitHash ('#' :: rest) = [] :: splitHash rest := by
  simp [splitHash]

theorem parseColorList_empty_head (xs : List Str) :
    parseColorList ([] :: xs) = .error (.configError "Could not interpret  as hex color") :=
  rfl

/-- C10 (confirmed).  A map-mode `current_color` line is split on every
`'#'` and every token, the first included, is parsed as a hex color; a line
beginning with `'#'` therefore yields an empty first token and a
`ConfigError`, in both the mid-file dispatch and the end-of-input flush,
while the same row written without the leading `'#'` parses. -/
theorem c10_map_current_color_hash :
    (∀ rest : Str, parseColorList (splitHash ('#' :: rest)) =
      .error (.configError "Could not interpret  as hex color"))
    ∧ parseConfig "[mode]\nmap\n[current_color]\n#aabbcc\n[colors]\n11aabb#010203".toList =
        .error (.configError "Could not interpret  as hex color")
    ∧ parseConfig "[mode]\nmap\n[colors]\n11aabb#010203\n[current_color]\n#aabbcc".toList =
        .error (.configError "Could not interpret  as hex color")
    ∧ parseConfig "[mode]\nmap\n[colors]\n11aabb#010203\n[current_color]\naabbcc#ddeeff".toList =
        .ok (.mapConfig ⟨[⟨170, 187, 204⟩, ⟨221, 238, 255⟩], [[⟨1, 2, 3⟩]], [1], [], false⟩) := by
  refine ⟨?_, by decide, by decide, by decide⟩
  intro rest
  rw [splitHash_cons_hash]
  exact parseColorList_empty_head _

/-! ## C7: `get_colors_scaled` -/

theorem scaledGo_eq_spec (cur : Color) (ws : List Nat) :
    ∀ (cs : List Color) (i : Nat),
      scaledGo cur ws i cs = concatAll ((List.range cs.length).map (fun j =>
        if cs.getD j Color.black = cur then []
        else List.replicate (ws.getD (i + j) 1) (cs.getD j Color.black)))
  | [], i => by simp [scaledGo, concatAll]
  | c :: rest, i => by
    rw [scaledGo, scaledGo_eq_spec cur ws rest (i + 1)]
    rw [List.length_cons, List.range_succ_eq_map]
    simp only [List.map_cons, List.map_map, concatAll]
    have hmap : ∀ j ∈ List.range rest.length,
        ((fun j => if (c :: rest).getD j Color.black = cur then []
          else List.replicate (ws.getD (i + j) 1) ((c :: rest).getD j Color.black)) ∘ Nat.succ) j =
        (fun j => if rest.getD j Color.black = cur then []
          else List.replicate (ws.getD (i + 1 + j) 1) (rest.getD j Color.black)) j := by
      intro j _
      simp only [Function.comp, List.getD_cons_succ]
      rw [show i + (j + 1) = i + 1 + j by omega]
    rw [List.map_congr_left hmap]
    simp only [List.getD_cons_zero, Nat.add_zero]
    by_cases hc : c = cur <;> simp [hc]

theorem not_mem_scaledGo (cur : Color) (ws : List Nat) :
    ∀ (cs : List Color) (i : Nat), cur ∉ scaledGo cur ws i cs
  | [], _ => by simp [scaledGo]
  | c :: rest, i => by
    rw [scaledGo]
    by_cases hc : c = cur
    · rw [if_pos hc]; exact not_mem_scaledGo cur ws rest (i + 1)
    · rw [if_neg hc]
      intro hmem
      rcases List.mem_append.mp hmem with h | h
      · exact hc (List.eq_of_mem_replicate h).symm
      · exact not_mem_scaledGo cur ws rest (i + 1) h

/-- C7 (confirmed).  `get_colors_scaled` is the concatenation, over the
color indices, of `weights[i]` copies of color `i` (one copy when the
weight is absent) with the current color's entries skipped; the current
color never occurs in the result; and the spec's example `[A, B, C]` with
weights `[1, 3, 1]` and current `A` gives four entries: `B` three times,
`C` once, `A` never. -/
theorem c7_colors_scaled :
    (∀ g : GradientConfig, g.get_colors_scaled = scaledSpec g)
    ∧ (∀ g : GradientConfig, g.current_color ∉ g.get_colors_scaled)
    ∧ c7Example.get_colors_scaled = [⟨2, 2, 2⟩, ⟨2, 2, 2⟩, ⟨2, 2, 2⟩, ⟨3, 3, 3⟩]
    ∧ c7Example.get_colors_scaled.length = 4
    ∧ c7Example.get_colors_scaled.count ⟨2, 2, 2⟩ = 3
    ∧ c7Example.get_colors_scaled.count ⟨3, 3, 3⟩ = 1
    ∧ c7Example.current_color ∉ c7Example.get_colors_scaled := by
  refine ⟨?_, ?_, by decide, by decide, by decide, by decide, by decide⟩
  · intro g
    unfold GradientConfig.get_colors_scaled scaledSpec
    rw [scaledGo_eq_spec]
    refine congrArg concatAll (List.map_congr_left ?_)
    intro j _
    rw [Nat.zero_add]
  · intro g
    exact not_mem_scaledGo _ _ _ _

/-! ## C3: the gradient interpolation has no zero-denominator guard -/

/-- C3 (code bug: the spec mandates a guard treating the ratio as 1.0; the
source performs the division unguarded).  Concrete evaluation: palette
`[(0,200,200), (100,100,100)]` (sums 400 and 300, so the sorted order is as
written) with primary `#0a1428 = (10,20,40)`: the red ratio is the
unguarded `100 / 0 = +inf`, and `10 * inf` casts saturating to `255` — not
to the previous new red channel `10` that the claimed guard (ratio `1.0`)
would produce.  The green/blue channels use the exact ratio `1/2`. -/
theorem c3_gradient_unguarded_division :
    applyGradientTransform "#0a1428".toList "#000000".toList [(0, 200, 200), (100, 100, 100)]
        = .ok [(10, 20, 40), (255, 10, 20)]
    ∧ gradientMapGo (0, 200, 200) (10, 20, 40) [(100, 100, 100)]
        = [⟨(100, 100, 100), (255, 10, 20)⟩]
    ∧ fdiv (natF 100) (natF 0) = F.inf
    ∧ fToU8 (fmul (natF 10) F.inf) = 255
    ∧ (255 : Nat) ≠ 10 := by
  refine ⟨by decide, by decide, by decide, by decide, by decide⟩

/-! ## C2: the Map transform on palette triples -/

theorem applyPairGo_resolved (p : ColorMap) (q : Triple × Triple)
    (h : pairResolvedB p q = true) :
    ∀ cs : List Triple, applyPairGo p cs = .ok (cs.map (fun t => stepOld t q))
  | [] => by simp [applyPairGo]
  | t :: ts => by
    have h1 := (Bool.and_eq_true _ _).mp h
    have hc : p.current_color_bytes = .ok q.1 := of_decide_eq_true h1.1
    have hn : p.new_color_bytes = .ok q.2 := of_decide_eq_true h1.2
    simp only [applyPairGo, hc, hn, applyPairGo_resolved p q h ts]
    by_cases ht : t = q.1
    · simp [ht, stepOld]
    · simp [ht, stepOld]

theorem applyMapTransform_resolved :
    ∀ (ps : List ColorMap) (qs : List (Triple × Triple)),
      pairsResolvedB ps qs = true →
      ∀ cs : List Triple, applyMapTransform ps cs = .ok (cs.map (valueFold qs))
  | [], [], _, cs => by
    have hfold : valueFold [] = fun t => t := funext fun t => rfl
    simp [applyMapTransform, hfold]
  | [], _ :: _, h, _ => by simp [pairsResolvedB] at h
  | _ :: _, [], h, _ => by simp [pairsResolvedB] at h
  | p :: ps, q :: qs, h, cs => by
    have h1 := (Bool.and_eq_true _ _).mp h
    simp only [applyMapTransform, applyPairGo_resolved p q h1.1 cs]
    rw [applyMapTransform_resolved ps qs h1.2 (cs.map (fun t => stepOld t q))]
    simp [valueFold, List.map_map, Function.comp]

theorem writeBack_collect (f : Triple → Triple) :
    ∀ ts : List Triple,
      writeBack ts ((ts.filter (fun t => !isBW t)).map f) =
        ts.map (fun t => if isBW t then t else f t)
  | [] => by simp [writeBack]
  | t :: ts => by
    cases hb : isBW t with
    | true => simp [List.filter_cons, hb, writeBack, writeBack_collect f ts]
    | false => simp [List.filter_cons, hb, writeBack, writeBack_collect f ts]

theorem valueFold_id (t : Triple) :
    ∀ qs : List (Triple × Triple), (∀ q ∈ qs, t ≠ q.1) → valueFold qs t = t
  | [], _ => rfl
  | q :: qs, h => by
    have ht : t ≠ q.1 := h q (by simp)
    simp only [valueFold, List.foldl_cons, stepOld, if_neg ht]
    exact valueFold_id t qs (fun q' hq' => h q' (by simp [hq']))

/-- C2 (corrected).  Black and white palette triples are never modified
(they are excluded at collection).  Every other triple is transformed by
the pair list applied sequentially in order — the outer loop runs over the
pairs — so its final value is the left fold of exact-match substitution
over the resolved pairs; substitutions can therefore chain through a later
pair whose old color equals an earlier pair's new color.  A triple that
never equals any pair's old color is left unchanged. -/
theorem c2_map_transform_amended :
    ∀ (pairs : List ColorMap) (qs : List (Triple × Triple)) (data : List Nat),
      pairsResolvedB pairs qs = true →
      processPaletteData (.map pairs) data =
        .ok (flattenTriples ((toTriples data).map
              (fun t => if isBW t then t else valueFold qs t))
            ++ data.drop (3 * (data.length / 3)))
      ∧ (∀ t : Triple, (∀ q ∈ qs, t ≠ q.1) → valueFold qs t = t) := by
  intro pairs qs data h
  refine ⟨?_, fun t ht => valueFold_id t qs ht⟩
  simp only [processPaletteData, applyTransform, collectColors,
    applyMapTransform_resolved pairs qs h, writeBack_collect]

/-- C2 counterexample.  With pairs `[(new #020202, old #010101),
(new #030303, old #020202)]` the palette triple `(1,1,1)` is first
rewritten to `(2,2,2)` by the first pair and then — by the second pair's
pass over the palette — to `(3,3,3)`, where the claimed first-match-once
semantics yields `(2,2,2)`; and a black triple `(0,0,0)` with a matching
pair is left unchanged, where the claim (which includes black and white
triples) predicts `(4,4,4)`. -/
theorem c2_map_chaining_counterexample :
    processPaletteData (.map c2Pairs) [1, 1, 1] = .ok [3, 3, 3]
    ∧ specMapPalette c2Qs [1, 1, 1] = [2, 2, 2]
    ∧ ([3, 3, 3] : List Nat) ≠ [2, 2, 2]
    ∧ processPaletteData (.map [⟨"#040404".toList, "#000000".toList⟩]) [0, 0, 0] = .ok [0, 0, 0]
    ∧ specMapPalette [((0, 0, 0), (4, 4, 4))] [0, 0, 0] = [4, 4, 4] := by
  refine ⟨by decide, by decide, by decide, by decide, by decide⟩

theorem c2_map_transform_amended_witness :
    processPaletteData (.map c2Pairs) [1, 1, 1, 0, 0, 0] =
      .ok (flattenTriples ((toTriples [1, 1, 1, 0, 0, 0]).map
            (fun t => if isBW t then t else valueFold c2Qs t))
          ++ ([1, 1, 1, 0, 0, 0] : List Nat).drop
              (3 * (([1, 1, 1, 0, 0, 0] : List Nat).length / 3))) :=
  (c2_map_transform_amended c2Pairs c2Qs [1, 1, 1, 0, 0, 0] (by decide)).1

/-! ## C6: grayscale and grayscale-alpha PNGs succeed and write nothing -/

/-- C6 (confirmed).  Whenever the signature check and the IHDR read succeed
and the color-type byte is 0 (grayscale) or 4 (grayscale-alpha),
`recolor_png` returns success immediately; the `ok none` result is the
no-write success, so no byte of any file changes, for every transform. -/
theorem c6_grayscale_noop :
    ∀ (src : String) (file : List Nat) (t : ColorTransform) (rest : List Nat)
      (ihdr : Chunk) (rest2 : List Nat) (b : Nat),
      checkSigGo src PNG_FORMAT_IDENTIFIER file = .ok rest →
      readChunk rest = .ok (ihdr, rest2) →
      ihdr.chunk_type = IHDRtag →
      ihdr.chunk_data.get? 9 = some b →
      b = 0 ∨ b = 4 →
      recolorPng src file t = .ok none := by
  intro src file t rest ihdr rest2 b h1 h2 h3 h4 h5
  unfold recolorPng
  simp only [h1, h2, h3, h4, eq_self_iff_true, if_true]
  rcases h5 with h | h <;> subst h <;> rfl

theorem c6_grayscale_noop_witness :
    recolorPng "gray.png" gsFixture (.gradient "#0a1428".toList "#000000".toList) = .ok none :=
  c6_grayscale_noop "gray.png" gsFixture (.gradient "#0a1428".toList "#000000".toList)
    ([0, 0, 0, 13] ++ [0x49, 0x48, 0x44, 0x52] ++
      [0, 0, 0, 1, 0, 0, 0, 1, 8, 0, 0, 0, 0] ++ [1, 2, 3, 4])
    ⟨13, IHDRtag, [0, 0, 0, 1, 0, 0, 0, 1, 8, 0, 0, 0, 0], [1, 2, 3, 4]⟩ [] 0
    (by decide) (by decide) rfl (by decide) (Or.inl rfl)

/-! ## C5: RGB / RGBA color types -/

/-- C5 (code bug: the spec's error taxonomy reserves `UnsupportedError` for
RGB/RGBA, the source returns `FileReadError`).  Concrete evaluation on a
minimal color-type-2 PNG: the result is the `FileReadError` kind, which is
a different kind than `UnsupportedError`; nothing is written. -/
theorem c5_rgb_error_kind :
    recolorPng "source.png" rgbFixture (.map [])
        = .error (.fileReadError "Can't decompress png of type RGB")
    ∧ writesOf (recolorPng "source.png" rgbFixture (.map [])) = []
    ∧ TranError.fileReadError "Can't decompress png of type RGB"
        ≠ TranError.unsupportedError "Can't decompress png of type RGB" := by
  refine ⟨by decide, by decide, by decide⟩

/-! ## C4: the CRC-32 implementation -/

theorem xor_mod_two_of_even (u v : Nat) (hv : v % 2 = 0) : (u ^^^ v) % 2 = u % 2 := by
  have hx := @Nat.xor_mod_two_eq_one u v
  have hv1 : ¬v % 2 = 1 := by omega
  by_cases hu : u % 2 = 1
  · have h1 : (u ^^^ v) % 2 = 1 := hx.mpr (fun hiff => hv1 (hiff.mp hu))
    omega
  · have h0 : ¬(u ^^^ v) % 2 = 1 :=
      fun hc => (hx.mp hc) ⟨fun h => absurd h hu, fun h => absurd h hv1⟩
    omega

theorem crcRound_xor_even (u v : Nat) (hv : v % 2 = 0) :
    crcRound (u ^^^ v) = crcRound u ^^^ v / 2 := by
  unfold crcRound
  rw [xor_mod_two_of_even u v hv, Nat.xor_div_two]
  by_cases hu : u % 2 = 1
  · rw [if_pos hu, if_pos hu, Nat.xor_assoc]
  · rw [if_neg hu, if_neg hu]

theorem shiftLeft_succ_mod_two (x k : Nat) : (x <<< (k + 1)) % 2 = 0 := by
  have h : x <<< (k + 1) = 2 * (x * 2 ^ k) := by rw [Nat.shiftLeft_eq]; ring
  rw [h]
  exact Nat.mul_mod_right 2 _

theorem shiftLeft_succ_div_two (x k : Nat) : (x <<< (k + 1)) / 2 = x <<< k := by
  have h : x <<< (k + 1) = 2 * (x * 2 ^ k) := by rw [Nat.shiftLeft_eq]; ring
  rw [h, Nat.mul_div_cancel_left _ (by omega : 0 < 2)]
  exact (Nat.shiftLeft_eq x k).symm

theorem crcRound_iterate_shiftLeft : ∀ (k y h : Nat),
    crcRound^[k] (y ^^^ (h <<< k)) = crcRound^[k] y ^^^ h
  | 0, y, h => by simp
  | k + 1, y, h => by
    rw [Function.iterate_succ_apply, Function.iterate_succ_apply,
      crcRound_xor_even y (h <<< (k + 1)) (shiftLeft_succ_mod_two h k),
      shiftLeft_succ_div_two h k]
    exact crcRound_iterate_shiftLeft k (crcRound y) h

theorem testBit_255 (j : Nat) : (255 : Nat).testBit j = decide (j < 8) := by
  have h := Nat.testBit_two_pow_sub_one 8 j
  norm_num at h
  exact h

theorem and_255_xor_decomp (y : Nat) : y = (y &&& 255) ^^^ ((y >>> 8) <<< 8) := by
  apply Nat.eq_of_testBit_eq
  intro i
  simp only [Nat.testBit_xor, Nat.testBit_and, Nat.testBit_shiftLeft, Nat.testBit_shiftRight,
    testBit_255]
  by_cases hi : i < 8
  · have hge : ¬i ≥ 8 := by omega
    simp [hi, hge]
  · have hge : i ≥ 8 := by omega
    have he : 8 + (i - 8) = i := by omega
    simp [hi, hge, he]

theorem round8_reduce (y : Nat) :
    crcRound^[8] y = crcRound^[8] (y &&& 255) ^^^ (y >>> 8) := by
  conv_lhs => rw [and_255_xor_decomp y]
  exact crcRound_iterate_shiftLeft 8 (y &&& 255) (y >>> 8)

theorem xor_shiftRight_eight (c b : Nat) (hb : b < 256) : (c ^^^ b) >>> 8 = c >>> 8 := by
  apply Nat.eq_of_testBit_eq
  intro i
  simp only [Nat.testBit_shiftRight, Nat.testBit_xor]
  have hpow : (256 : Nat) ≤ 2 ^ (8 + i) := by
    calc (256 : Nat) = 2 ^ 8 := by norm_num
    _ ≤ 2 ^ (8 + i) := Nat.pow_le_pow_right (by omega) (by omega)
  have hbit : b.testBit (8 + i) = false := Nat.testBit_lt_two_pow (by omega)
  simp [hbit]

theorem crc_step (c b : Nat) (hb : b < 256) :
    crcTableEntry ((c ^^^ b) &&& 0xff) ^^^ (c >>> 8) = crcRound^[8] (c ^^^ b) := by
  unfold crcTableEntry
  rw [round8_reduce (c ^^^ b), xor_shiftRight_eight c b hb]

theorem crcGo_eq_spec : ∀ (buf : List Nat) (c : Nat), (∀ b ∈ buf, b < 256) →
    crcGo c buf = crcSpecGo c buf
  | [], _, _ => rfl
  | b :: rest, c, h => by
    have hb : b < 256 := h b (by simp)
    show crcGo (crcTableEntry ((c ^^^ b) &&& 0xff) ^^^ c >>> 8) rest
        = crcSpecGo (crcRound^[8] (c ^^^ b)) rest
    rw [crc_step c b hb]
    exact crcGo_eq_spec rest _ (fun x hx => h x (by simp [hx]))

theorem mask_shift_255 (v k : Nat) : (v &&& (255 <<< k)) >>> k = (v >>> k) % 256 := by
  rw [show (256 : Nat) = 2 ^ 8 by norm_num]
  apply Nat.eq_of_testBit_eq
  intro i
  simp only [Nat.testBit_shiftRight, Nat.testBit_and, Nat.testBit_shiftLeft,
    Nat.testBit_mod_two_pow, testBit_255]
  have e1 : k + i - k = i := by omega
  have e2 : k + i ≥ k := by omega
  by_cases hv : v.testBit (k + i) <;> by_cases hi : i < 8 <;> simp [hv, hi, e1, e2]

/-- C4 (confirmed).  The codec's `crc` equals the reference IEEE CRC-32
(polynomial `0xEDB88320` applied LSB-first per byte, initial register
`0xFFFFFFFF`, final xor `0xFFFFFFFF`) on every byte buffer; the four bytes
the codec derives from a 32-bit value by mask and shift are exactly the
big-endian bytes; and on a `PLTE` chunk the output carries the recomputed
CRC over `[type bytes ++ mutated data]` in that byte order. -/
theorem c4_crc_standard :
    (∀ buf : List Nat, (∀ b ∈ buf, b < 256) → crc buf = crcSpec buf)
    ∧ (∀ v : Nat, be32 v = [(v >>> 24) % 256, (v >>> 16) % 256, (v >>> 8) % 256, v % 256])
    ∧ (∀ (t : ColorTransform) (raw8 : List Nat) (ch : Chunk) (newData : List Nat),
        ch.chunk_type = PLTEtag →
        processPaletteData t ch.chunk_data = .ok newData →
        chunkOut t raw8 ch =
          .ok (raw8 ++ newData ++ be32 (crc (be32 ch.chunk_type ++ newData)))) := by
  refine ⟨?_, ?_, ?_⟩
  · intro buf h
    unfold crc crcSpec
    rw [crcGo_eq_spec buf _ h]
  · intro v
    have h0 : v &&& 255 = v % 256 := by simpa using mask_shift_255 v 0
    unfold be32
    rw [show (0xFF000000 : Nat) = 255 <<< 24 from by decide,
      show (0x00FF0000 : Nat) = 255 <<< 16 from by decide,
      show (0x0000FF00 : Nat) = 255 <<< 8 from by decide,
      show (3 * 8 : Nat) = 24 from rfl, show (2 * 8 : Nat) = 16 from rfl,
      mask_shift_255, mask_shift_255, mask_shift_255, h0]
  · intro t raw8 ch newData h1 h2
    unfold chunkOut
    rw [if_pos h1]
    simp only [h2]

theorem c4_crc_standard_witness :
    crc [0x49, 0x45, 0x4E, 0x44] = crcSpec [0x49, 0x45, 0x4E, 0x44] :=
  c4_crc_standard.1 [0x49, 0x45, 0x4E, 0x44] (by decide)

/-! ## C8: errors never write; the buffer is written once, whole -/

theorem checkSigGo_length (src : String) :
    ∀ (es bs rest : List Nat), checkSigGo src es bs = .ok rest →
      bs.length = es.length + rest.length
  | [], bs, rest, h => by
    simp only [checkSigGo, Except.ok.injEq] at h
    subst h
    simp
  | _ :: _, [], _, h => by simp [checkSigGo] at h
  | e :: es, b :: bs, rest, h => by
    rw [checkSigGo] at h
    split at h
    · have := checkSigGo_length src es bs rest h
      simp only [List.length_cons]
      omega
    · exact absurd h (by simp)

theorem readChunk_lengths (l : List Nat) (ch : Chunk) (rest : List Nat)
    (h : readChunk l = .ok (ch, rest)) :
    l.length = 12 + ch.chunk_data.length + rest.length ∧ ch.crc4.length = 4 := by
  simp only [readChunk] at h
  split at h
  · exact absurd h (by simp)
  · split at h
    · exact absurd h (by simp)
    · split at h
      · exact absurd h (by simp)
      · split at h
        · exact absurd h (by simp)
        · injection h with h'
          injection h' with hch hrest
          subst hch
          subst hrest
          rename_i hn1 hn2 hn3 hn4
          simp only [List.length_take, List.length_drop] at *
          constructor
          · omega
          · omega

theorem flattenTriples_length : ∀ ts : List Triple, (flattenTriples ts).length = 3 * ts.length
  | [] => rfl
  | t :: ts => by
    simp only [flattenTriples, List.length_cons, flattenTriples_length ts]
    omega

theorem writeBack_length : ∀ (ts news : List Triple), (writeBack ts news).length = ts.length
  | [], _ => rfl
  | t :: ts, news => by
    cases hb : isBW t with
    | true => simp [writeBack, hb, writeBack_length ts news]
    | false =>
      cases news with
      | nil => simp [writeBack, hb, writeBack_length ts ([] : List Triple)]
      | cons n ns => simp [writeBack, hb, writeBack_length ts ns]

theorem toTriples_length : ∀ data : List Nat, (toTriples data).length = data.length / 3
  | [] => by simp [toTriples]
  | [_] => by simp [toTriples]
  | [_, _] => by simp [toTriples]
  | _ :: _ :: _ :: rest => by
    simp only [toTriples, List.length_cons, toTriples_length rest]
    omega

theorem processPaletteData_length (t : ColorTransform) (data nd : List Nat)
    (h : processPaletteData t data = .ok nd) : nd.length = data.length := by
  simp only [processPaletteData] at h
  split at h
  · exact absurd h (by simp)
  · injection h with h'
    subst h'
    rw [List.length_append, flattenTriples_length, writeBack_length, toTriples_length,
      List.length_drop]
    omega

theorem chunkOut_length (t : ColorTransform) (raw8 : List Nat) (ch : Chunk)
    (outBytes : List Nat) (hcrc : ch.crc4.length = 4)
    (h : chunkOut t raw8 ch = .ok outBytes) :
    outBytes.length = raw8.length + ch.chunk_data.length + 4 := by
  unfold chunkOut at h
  split at h
  · split at h
    · exact absurd h (by simp)
    · rename_i newData heq
      injection h with h'
      subst h'
      have hnd := processPaletteData_length t _ _ heq
      simp only [List.length_append, hnd, be32, List.length_cons, List.length_nil]
  · injection h with h'
    subst h'
    simp only [List.length_append, hcrc]

theorem paletteLoop_length (t : ColorTransform) :
    ∀ (fuel : Nat) (acc rem out : List Nat),
      paletteLoop t fuel acc rem = .ok out → out.length = acc.length + rem.length
  | 0, _, _, _, h => by simp [paletteLoop] at h
  | fuel + 1, acc, rem, out, h => by
    rw [paletteLoop] at h
    split at h
    · exact absurd h (by simp)
    · rename_i ch rest heq
      obtain ⟨hlen, hcrc⟩ := readChunk_lengths rem ch rest heq
      split at h
      · exact absurd h (by simp)
      · rename_i outBytes heq2
        have htake : (rem.take 8).length = 8 := by
          rw [List.length_take]; omega
        have houtb := chunkOut_length t _ ch outBytes hcrc heq2
        rw [htake] at houtb
        split at h
        · injection h with h'
          subst h'
          simp only [List.length_append]
          omega
        · have hrec := paletteLoop_length t fuel (acc ++ outBytes) rest out h
          simp only [List.length_append] at hrec
          omega

/-- C8 (confirmed).  `recolor_png` never writes on an error result; at most
one buffer is ever written; and a written buffer has exactly the length of
the source file (the in-place mutation never truncates or extends), so a
failing invocation can neither corrupt nor partially write the
destination. -/
theorem c8_single_write :
    ∀ (src : String) (file : List Nat) (t : ColorTransform),
      (isOkE (recolorPng src file t) = false → writesOf (recolorPng src file t) = [])
      ∧ (writesOf (recolorPng src file t)).length ≤ 1
      ∧ (∀ out, recolorPng src file t = .ok (some out) → out.length = file.length) := by
  intro src file t
  refine ⟨?_, ?_, ?_⟩
  · intro h
    cases hr : recolorPng src file t with
    | error e => simp [writesOf]
    | ok o => rw [hr] at h; simp [isOkE] at h
  · cases hr : recolorPng src file t with
    | error e => simp [writesOf]
    | ok o => cases o <;> simp [writesOf]
  · intro out h
    unfold recolorPng at h
    split at h
    · exact absurd h (by simp)
    · rename_i rest hsig
      split at h
      · exact absurd h (by simp)
      · rename_i ihdr rest2 hch
        split at h
        · split at h
          · exact absurd h (by simp)
          · rename_i ctByte hct
            split at h
            · exact absurd h (by simp)
            · rename_i ct hctype
              split at h
              · exact absurd h (by simp)
              · exact absurd h (by simp)
              · exact absurd h (by simp)
              · exact absurd h (by simp)
              · split at h
                · exact absurd h (by simp)
                · rename_i out2 hloop
                  injection h with h'
                  injection h' with h''
                  subst h''
                  have hlen := paletteLoop_length t _ _ _ _ hloop
                  have hsig' := checkSigGo_length src _ _ _ hsig
                  obtain ⟨hrc, -⟩ := readChunk_lengths _ _ _ hch
                  rw [List.length_take] at hlen
                  simp only [PNG_FORMAT_IDENTIFIER, List.length_cons, List.length_nil] at hsig'
                  omega
        · exact absurd h (by simp)

theorem c8_single_write_witness :
    writesOf (recolorPng "missing.png" [] (.map [])) = []
    ∧ plteFixtureOut.length = plteFixture.length :=
  ⟨(c8_single_write "missing.png" [] (.map [])).1 (by decide),
   (c8_single_write "p.png" plteFixture (.map [])).2.2 plteFixtureOut (by decide)⟩

/-! ## C1: the round trip through `write_config` and `parse_config`

The round-trip proof simulates the scanning state machine over the written
text, one chunk at a time. -/

theorem concatAll_append {α : Type} :
    ∀ (a b : List (List α)), concatAll (a ++ b) = concatAll a ++ concatAll b
  | [], _ => rfl
  | l :: ls, b => by simp [concatAll, concatAll_append ls b]

theorem runSteps_append : ∀ (a : Str) (st : PSt) (b : Str),
    runSteps st (a ++ b) = match runSteps st a with
      | .ok st' => runSteps st' b
      | .error e => .error e
  | [], _, _ => rfl
  | c :: rest, st, b => by
    rw [List.cons_append, runSteps, runSteps]
    cases h : stepChar st c with
    | error e => rfl
    | ok st' => exact runSteps_append rest st' b

theorem runSteps_text_consume : ∀ (cs : Str), (∀ c ∈ cs, c ≠ '\n') →
    ∀ (sec : CfgSection) (bf : Str) (m : Option Mode) (cur : ColorOrMap)
      (cols' : Option ColorOrMapVec) (tf : List Str) (ov : Bool) (w : List Nat) (rest : Str),
    runSteps ⟨.text, sec, bf, m, cur, cols', tf, ov, w⟩ (cs ++ rest)
      = runSteps ⟨.text, sec, bf ++ cs, m, cur, cols', tf, ov, w⟩ rest
  | [], _, sec, bf, m, cur, cols', tf, ov, w, rest => by simp
  | c :: cs', h, sec, bf, m, cur, cols', tf, ov, w, rest => by
    have hc : c ≠ '\n' := h c (by simp)
    rw [List.cons_append, runSteps]
    have hstep : stepChar ⟨.text, sec, bf, m, cur, cols', tf, ov, w⟩ c
        = .ok ⟨.text, sec, bf ++ [c], m, cur, cols', tf, ov, w⟩ := by
      simp [stepChar, hc]
    rw [hstep]
    show runSteps ⟨.text, sec, bf ++ [c], m, cur, cols', tf, ov, w⟩ (cs' ++ rest) = _
    rw [runSteps_text_consume cs' (fun x hx => h x (by simp [hx]))]
    have hbf : (bf ++ [c]) ++ cs' = bf ++ (c :: cs') := by simp
    rw [hbf]

theorem runSteps_content_line (c0 : Char) (cs : Str) (hc0 : c0 ≠ '[')
    (hcs : ∀ c ∈ cs, c ≠ '\n') (sec : CfgSection) (m : Option Mode) (cur : ColorOrMap)
    (cols' : Option ColorOrMapVec) (tf : List Str) (ov : Bool) (w : List Nat) :
    runSteps ⟨.newLine, sec, [], m, cur, cols', tf, ov, w⟩ ((c0 :: cs) ++ nl)
      = match dispatchLine ⟨.text, sec, c0 :: cs, m, cur, cols', tf, ov, w⟩ with
        | .error e => .error e
        | .ok st' => .ok { st' with state := .newLine } := by
  rw [List.cons_append, runSteps]
  have h1 : stepChar ⟨.newLine, sec, [], m, cur, cols', tf, ov, w⟩ c0
      = .ok ⟨.text, sec, [c0], m, cur, cols', tf, ov, w⟩ := by
    simp [stepChar, hc0]
  rw [h1]
  show runSteps ⟨.text, sec, [c0], m, cur, cols', tf, ov, w⟩ (cs ++ nl) = _
  rw [runSteps_text_consume cs hcs]
  rw [show ([c0] ++ cs : Str) = c0 :: cs from rfl]
  rw [show (nl : Str) = '\n' :: [] from rfl, runSteps]
  cases hd : dispatchLine ⟨.text, sec, c0 :: cs, m, cur, cols', tf, ov, w⟩ with
  | error e => simp [stepChar, hd]
  | ok st' => simp [stepChar, hd, runSteps]

theorem splitHash_no_hash : ∀ l : Str, (∀ ch ∈ l, ch ≠ '#') → splitHash l = [l]
  | [], _ => rfl
  | c :: rest, h => by
    have hc : c ≠ '#' := h c (by simp)
    rw [splitHash, if_neg hc, splitHash_no_hash rest (fun x hx => h x (by simp [hx]))]

theorem hexChars_not_special : ∀ ch ∈ hexChars, ch ≠ '#' ∧ ch ≠ '\n' ∧ ch ≠ '[' := by
  decide

theorem hexBody_mem (c : Color) :
    ∀ ch ∈ hexPair c.red ++ (hexPair c.green ++ hexPair c.blue), ch ∈ hexChars := by
  intro ch hch
  simp only [List.mem_append] at hch
  rcases hch with h | h | h <;> exact mem_hexPair h

theorem tryFromHexStr_hexBody (c : Color) (h : c.valid) :
    tryFromHexStr (hexPair c.red ++ (hexPair c.green ++ hexPair c.blue)) = .ok c := by
  obtain ⟨r, g, b⟩ := c
  obtain ⟨h1, h2, h3⟩ := h
  show colorFromSlices (hexPair r) (hexPair g) (hexPair b) = .ok ⟨r, g, b⟩
  unfold colorFromSlices
  rw [hexPair_parse r h1, hexPair_parse g h2, hexPair_parse b h3]

theorem splitHash_displayColor (c : Color) :
    splitHash (displayColor c) = [[], hexPair c.red ++ (hexPair c.green ++ hexPair c.blue)] := by
  rw [show displayColor c = '#' :: (hexPair c.red ++ (hexPair c.green ++ hexPair c.blue))
    from by simp [displayColor]]
  rw [splitHash_cons_hash,
    splitHash_no_hash _ (fun ch hch => (hexChars_not_special ch (hexBody_mem c ch hch)).1)]

theorem displayColor_no_newline (c : Color) :
    ∀ ch ∈ hexPair c.red ++ (hexPair c.green ++ hexPair c.blue), ch ≠ '\n' :=
  fun ch hch => (hexChars_not_special ch (hexBody_mem c ch hch)).2.1

theorem dispatch_current_color_gradient (cc : Color) (hcc : cc.valid) (cur : ColorOrMap)
    (cols' : Option ColorOrMapVec) (tf : List Str) (ov : Bool) (w : List Nat) :
    dispatchLine ⟨.text, .currentColor, displayColor cc, some .gradient, cur, cols', tf, ov, w⟩
      = .ok ⟨.text, .currentColor, [], some .gradient, .color cc, cols', tf, ov, w⟩ := by
  simp only [dispatchLine, tryFromHexStr_displayColor cc hcc]

theorem weightOfToken_nil : weightOfToken [] = 1 := by decide

theorem dispatch_gradient_color_none (c : Color) (hc : c.valid) (cur : ColorOrMap)
    (tf : List Str) (ov : Bool) (w : List Nat) :
    dispatchLine ⟨.text, .colors, displayColor c, some .gradient, cur, none, tf, ov, w⟩
      = .ok ⟨.text, .colors, [], some .gradient, cur, some (.color [c]), tf, ov, w ++ [1]⟩ := by
  simp only [dispatchLine, splitHash_displayColor c, List.headD_cons, List.drop_succ_cons,
    List.drop_zero, weightOfToken_nil, tryFromHexStr_hexBody c hc]

theorem dispatch_gradient_color_some (c : Color) (hc : c.valid) (v : List Color)
    (cur : ColorOrMap) (tf : List Str) (ov : Bool) (w : List Nat) :
    dispatchLine ⟨.text, .colors, displayColor c, some .gradient, cur, some (.color v), tf, ov, w⟩
      = .ok ⟨.text, .colors, [], some .gradient, cur, some (.color (v ++ [c])), tf, ov,
          w ++ [1]⟩ := by
  simp only [dispatchLine, splitHash_displayColor c, List.headD_cons, List.drop_succ_cons,
    List.drop_zero, weightOfToken_nil, tryFromHexStr_hexBody c hc]

theorem run_current_color_line (cc : Color) (hcc : cc.valid) (cur : ColorOrMap)
    (cols' : Option ColorOrMapVec) (tf : List Str) (ov : Bool) (w : List Nat) :
    runSteps ⟨.newLine, .currentColor, [], some .gradient, cur, cols', tf, ov, w⟩
        (displayColor cc ++ nl)
      = .ok ⟨.newLine, .currentColor, [], some .gradient, .color cc, cols', tf, ov, w⟩ := by
  rw [show (displayColor cc ++ nl : Str)
      = ('#' :: (hexPair cc.red ++ (hexPair cc.green ++ hexPair cc.blue))) ++ nl
    from by simp [displayColor]]
  rw [runSteps_content_line '#' _ (by decide) (displayColor_no_newline cc)]
  rw [show ('#' :: (hexPair cc.red ++ (hexPair cc.green ++ hexPair cc.blue)) : Str)
      = displayColor cc from by simp [displayColor]]
  rw [dispatch_current_color_gradient cc hcc]

theorem run_first_color_line (c : Color) (hc : c.valid) (cur : ColorOrMap)
    (tf : List Str) (ov : Bool) (w : List Nat) :
    runSteps ⟨.newLine, .colors, [], some .gradient, cur, none, tf, ov, w⟩
        (displayColor c ++ nl)
      = .ok ⟨.newLine, .colors, [], some .gradient, cur, some (.color [c]), tf, ov,
          w ++ [1]⟩ := by
  rw [show (displayColor c ++ nl : Str)
      = ('#' :: (hexPair c.red ++ (hexPair c.green ++ hexPair c.blue))) ++ nl
    from by simp [displayColor]]
  rw [runSteps_content_line '#' _ (by decide) (displayColor_no_newline c)]
  rw [show ('#' :: (hexPair c.red ++ (hexPair c.green ++ hexPair c.blue)) : Str)
      = displayColor c from by simp [displayColor]]
  rw [dispatch_gradient_color_none c hc]

theorem run_next_color_line (c : Color) (hc : c.valid) (v : List Color) (cur : ColorOrMap)
    (tf : List Str) (ov : Bool) (w : List Nat) :
    runSteps ⟨.newLine, .colors, [], some .gradient, cur, some (.color v), tf, ov, w⟩
        (displayColor c ++ nl)
      = .ok ⟨.newLine, .colors, [], some .gradient, cur, some (.color (v ++ [c])), tf, ov,
          w ++ [1]⟩ := by
  rw [show (displayColor c ++ nl : Str)
      = ('#' :: (hexPair c.red ++ (hexPair c.green ++ hexPair c.blue))) ++ nl
    from by simp [displayColor]]
  rw [runSteps_content_line '#' _ (by decide) (displayColor_no_newline c)]
  rw [show ('#' :: (hexPair c.red ++ (hexPair c.green ++ hexPair c.blue)) : Str)
      = displayColor c from by simp [displayColor]]
  rw [dispatch_gradient_color_some c hc]

theorem run_target_line (c0 : Char) (cs : Str) (hc0 : c0 ≠ '[') (hcs : ∀ c ∈ cs, c ≠ '\n')
    (m : Option Mode) (cur : ColorOrMap) (cols' : Option ColorOrMapVec) (tf : List Str)
    (ov : Bool) (w : List Nat) :
    runSteps ⟨.newLine, .targetFiles, [], m, cur, cols', tf, ov, w⟩ ((c0 :: cs) ++ nl)
      = .ok ⟨.newLine, .targetFiles, [], m, cur, cols', tf ++ [c0 :: cs], ov, w⟩ := by
  rw [runSteps_content_line c0 cs hc0 hcs]
  rfl

theorem targetEntryOk_spec (e : Str) (h : targetEntryOkB e = true) :
    ∃ c0 cs, e = c0 :: cs ∧ c0 ≠ '[' ∧ ∀ c ∈ cs, c ≠ '\n' := by
  cases e with
  | nil => simp [targetEntryOkB] at h
  | cons c0 cs =>
    simp only [targetEntryOkB, Bool.and_eq_true, decide_eq_true_eq, List.all_eq_true] at h
    exact ⟨c0, cs, rfl, h.1, fun c hc => h.2 c hc⟩

theorem run_colors_lines :
    ∀ (cs : List Color), (∀ c ∈ cs, c.valid) →
      ∀ (v : List Color) (cur : ColorOrMap) (tf : List Str) (ov : Bool) (w : List Nat)
        (rest : Str),
      runSteps ⟨.newLine, .colors, [], some .gradient, cur, some (.color v), tf, ov, w⟩
          (concatAll (cs.map (fun c => displayColor c ++ nl)) ++ rest)
        = runSteps ⟨.newLine, .colors, [], some .gradient, cur, some (.color (v ++ cs)), tf, ov,
            w ++ List.replicate cs.length 1⟩ rest
  | [], _, v, cur, tf, ov, w, rest => by simp [concatAll]
  | c :: cs', h, v, cur, tf, ov, w, rest => by
    rw [List.map_cons, show concatAll ((displayColor c ++ nl) ::
        cs'.map (fun c => displayColor c ++ nl)) = (displayColor c ++ nl) ++
        concatAll (cs'.map (fun c => displayColor c ++ nl)) from rfl]
    rw [List.append_assoc, runSteps_append, run_next_color_line c (h c (by simp)) v cur tf ov w]
    show runSteps ⟨.newLine, .colors, [], some .gradient, cur, some (.color (v ++ [c])), tf, ov,
        w ++ [1]⟩ (concatAll (cs'.map (fun c => displayColor c ++ nl)) ++ rest) = _
    rw [run_colors_lines cs' (fun x hx => h x (by simp [hx]))]
    have h1 : (v ++ [c]) ++ cs' = v ++ (c :: cs') := by simp
    have h2 : (w ++ [1]) ++ List.replicate cs'.length 1
        = w ++ List.replicate (c :: cs').length 1 := by
      simp [List.replicate_succ]
    rw [h1, h2]

theorem run_target_lines :
    ∀ (ts : List Str), (∀ e ∈ ts, targetEntryOkB e = true) →
      ∀ (m : Option Mode) (cur : ColorOrMap) (cols' : Option ColorOrMapVec) (tf : List Str)
        (ov : Bool) (w : List Nat) (rest : Str),
      runSteps ⟨.newLine, .targetFiles, [], m, cur, cols', tf, ov, w⟩
          (concatAll (ts.map (fun t => t ++ nl)) ++ rest)
        = runSteps ⟨.newLine, .targetFiles, [], m, cur, cols', tf ++ ts, ov, w⟩ rest
  | [], _, m, cur, cols', tf, ov, w, rest => by simp [concatAll]
  | e :: ts', h, m, cur, cols', tf, ov, w, rest => by
    obtain ⟨c0, cs, he, hc0, hcs⟩ := targetEntryOk_spec e (h e (by simp))
    subst he
    rw [List.map_cons, show concatAll (((c0 :: cs) ++ nl) :: ts'.map (fun t => t ++ nl))
        = ((c0 :: cs) ++ nl) ++ concatAll (ts'.map (fun t => t ++ nl)) from rfl]
    rw [List.append_assoc, runSteps_append, run_target_line c0 cs hc0 hcs]
    show runSteps ⟨.newLine, .targetFiles, [], m, cur, cols', tf ++ [c0 :: cs], ov, w⟩
        (concatAll (ts'.map (fun t => t ++ nl)) ++ rest) = _
    rw [run_target_lines ts' (fun x hx => h x (by simp [hx]))]
    have h1 : (tf ++ [c0 :: cs]) ++ ts' = tf ++ ((c0 :: cs) :: ts') := by simp
    rw [h1]

theorem run_final_entry (e : Str) (he : targetEntryOkB e = true) (m : Option Mode)
    (cur : ColorOrMap) (cols' : Option ColorOrMapVec) (tf : List Str) (ov : Bool)
    (w : List Nat) :
    runSteps ⟨.newLine, .targetFiles, [], m, cur, cols', tf, ov, w⟩ e
      = .ok ⟨.text, .targetFiles, e, m, cur, cols', tf, ov, w⟩ := by
  obtain ⟨c0, cs, hee, hc0, hcs⟩ := targetEntryOk_spec e he
  subst hee
  rw [runSteps]
  have hstep : stepChar ⟨.newLine, .targetFiles, [], m, cur, cols', tf, ov, w⟩ c0
      = .ok ⟨.text, .targetFiles, [c0], m, cur, cols', tf, ov, w⟩ := by
    simp [stepChar, hc0]
  rw [hstep]
  show runSteps ⟨.text, .targetFiles, [c0], m, cur, cols', tf, ov, w⟩ cs
      = .ok ⟨.text, .targetFiles, c0 :: cs, m, cur, cols', tf, ov, w⟩
  have h2 := runSteps_text_consume cs hcs .targetFiles [c0] m cur cols' tf ov w []
  rw [List.append_nil] at h2
  rw [h2]
  rfl

/-! Header chunks of the written gradient config; each run is a pure
computation of the state machine over concrete characters. -/

theorem run_chunk_mode :
    runSteps initSt "[mode]\ngradient\n[overwrite]\n".toList
      = .ok ⟨.newLine, .overwrite, [], some .gradient, .color Color.black, none, [],
          false, []⟩ := rfl

theorem run_overwrite_value (ov : Bool) (m : Option Mode) (cur : ColorOrMap)
    (cols' : Option ColorOrMapVec) (tf : List Str) (w : List Nat) :
    runSteps ⟨.newLine, .overwrite, [], m, cur, cols', tf, false, w⟩ (boolStr ov ++ nl)
      = .ok ⟨.newLine, .overwrite, [], m, cur, cols', tf, ov, w⟩ := by
  cases ov <;> rfl

theorem run_chunk_current_header (m : Option Mode) (cur : ColorOrMap)
    (cols' : Option ColorOrMapVec) (tf : List Str) (ov : Bool) (w : List Nat) :
    runSteps ⟨.newLine, .overwrite, [], m, cur, cols', tf, ov, w⟩ "[current_color]\n".toList
      = .ok ⟨.newLine, .currentColor, [], m, cur, cols', tf, ov, w⟩ := rfl

theorem run_chunk_colors_header (m : Option Mode) (cur : ColorOrMap)
    (cols' : Option ColorOrMapVec) (tf : List Str) (ov : Bool) (w : List Nat) :
    runSteps ⟨.newLine, .currentColor, [], m, cur, cols', tf, ov, w⟩ "[colors]\n".toList
      = .ok ⟨.newLine, .colors, [], m, cur, cols', tf, ov, w⟩ := rfl

theorem run_chunk_targets_header (m : Option Mode) (cur : ColorOrMap)
    (cols' : Option ColorOrMapVec) (tf : List Str) (ov : Bool) (w : List Nat) :
    runSteps ⟨.newLine, .colors, [], m, cur, cols', tf, ov, w⟩ "[target_files]\n".toList
      = .ok ⟨.newLine, .targetFiles, [], m, cur, cols', tf, ov, w⟩ := rfl

theorem run_chunk_targets_header_eof (m : Option Mode) (cur : ColorOrMap)
    (cols' : Option ColorOrMapVec) (tf : List Str) (ov : Bool) (w : List Nat) :
    runSteps ⟨.newLine, .colors, [], m, cur, cols', tf, ov, w⟩ "[target_files]".toList
      = .ok ⟨.braceClosed, .targetFiles, [], m, cur, cols', tf, ov, w⟩ := rfl

/-! Trimming the written text. -/

theorem dropLeadingWsp_bracket (l : Str) : dropLeadingWsp ('[' :: l) = '[' :: l := by
  simp [dropLeadingWsp, List.dropWhile_cons, show isRustWhitespace '[' = false from by decide]

theorem dropTrailingWsp_append_nonwsp (l : Str) (c : Char) (hc : isRustWhitespace c = false) :
    dropTrailingWsp (l ++ [c]) = l ++ [c] := by
  unfold dropTrailingWsp
  rw [List.reverse_append]
  simp [List.dropWhile_cons, hc]

theorem dropTrailingWsp_append_wsp (l : Str) (c : Char) (hc : isRustWhitespace c = true) :
    dropTrailingWsp (l ++ [c]) = dropTrailingWsp l := by
  unfold dropTrailingWsp
  rw [List.reverse_append]
  simp [List.dropWhile_cons, hc]

theorem rustTrim_shape (X : Str) (c : Char) (hc : isRustWhitespace c = false) :
    rustTrim (('[' :: (X ++ [c])) ++ ['\n']) = '[' :: (X ++ [c]) := by
  unfold rustTrim
  rw [show (('[' :: (X ++ [c])) ++ ['\n'] : Str) = '[' :: ((X ++ [c]) ++ ['\n']) from by simp]
  rw [dropLeadingWsp_bracket]
  rw [show ('[' :: ((X ++ [c]) ++ ['\n']) : Str) = ('[' :: (X ++ [c])) ++ ['\n'] from by simp]
  rw [dropTrailingWsp_append_wsp _ _ (by decide)]
  rw [show ('[' :: (X ++ [c]) : Str) = ('[' :: X) ++ [c] from by simp]
  rw [dropTrailingWsp_append_nonwsp _ _ hc]

/-! Composite chunk runs, in the exact association the trimmed text has. -/

theorem runh_mode (rest : Str) :
    runSteps initSt ("[mode]\ngradient\n[overwrite]\n".toList ++ rest)
      = runSteps ⟨.newLine, .overwrite, [], some .gradient, .color Color.black, none, [],
          false, []⟩ rest := rfl

theorem runh_ov_current (ov : Bool) (m : Option Mode) (cur : ColorOrMap)
    (cols' : Option ColorOrMapVec) (tf : List Str) (w : List Nat) (rest : Str) :
    runSteps ⟨.newLine, .overwrite, [], m, cur, cols', tf, false, w⟩
        (boolStr ov ++ ("\n[current_color]\n".toList ++ rest))
      = runSteps ⟨.newLine, .currentColor, [], m, cur, cols', tf, ov, w⟩ rest := by
  cases ov <;> rfl

theorem run_current_line_colors_header (cc : Color) (hcc : cc.valid) (cur : ColorOrMap)
    (cols' : Option ColorOrMapVec) (tf : List Str) (ov : Bool) (w : List Nat) (rest : Str) :
    runSteps ⟨.newLine, .currentColor, [], some .gradient, cur, cols', tf, ov, w⟩
        (displayColor cc ++ ("\n[colors]\n".toList ++ rest))
      = runSteps ⟨.newLine, .colors, [], some .gradient, .color cc, cols', tf, ov, w⟩ rest := by
  rw [show (displayColor cc ++ ("\n[colors]\n".toList ++ rest) : Str)
      = (displayColor cc ++ nl) ++ ("[colors]\n".toList ++ rest) from rfl]
  rw [runSteps_append, run_current_color_line cc hcc]
  rfl

theorem run_first_color_chunk (c : Color) (hc : c.valid) (cur : ColorOrMap)
    (tf : List Str) (ov : Bool) (w : List Nat) (rest : Str) :
    runSteps ⟨.newLine, .colors, [], some .gradient, cur, none, tf, ov, w⟩
        ((displayColor c ++ nl) ++ rest)
      = runSteps ⟨.newLine, .colors, [], some .gradient, cur, some (.color [c]), tf, ov,
          w ++ [1]⟩ rest := by
  rw [runSteps_append, run_first_color_line c hc]

theorem runh_targets (m : Option Mode) (cur : ColorOrMap) (cols' : Option ColorOrMapVec)
    (tf : List Str) (ov : Bool) (w : List Nat) (rest : Str) :
    runSteps ⟨.newLine, .colors, [], m, cur, cols', tf, ov, w⟩
        ("[target_files]\n".toList ++ rest)
      = runSteps ⟨.newLine, .targetFiles, [], m, cur, cols', tf, ov, w⟩ rest := rfl

theorem flush_nonempty_target (e : Str) (he : targetEntryOkB e = true) (m : Option Mode)
    (cur : ColorOrMap) (cols' : Option ColorOrMapVec) (tfp : List Str) (ov : Bool)
    (w : List Nat) :
    flushEnd ⟨.text, .targetFiles, e, m, cur, cols', tfp, ov, w⟩
      = .ok ⟨.text, .targetFiles, e, m, cur, cols', tfp ++ [e], ov, w⟩ := by
  obtain ⟨c0e, cse, hee, -, -⟩ := targetEntryOk_spec e he
  subst hee
  rfl

theorem colorsValidB_spec (cols : List Color) (h : colorsValidB cols = true) :
    ∀ c ∈ cols, c.valid := by
  simp only [colorsValidB, List.all_eq_true, decide_eq_true_eq] at h
  exact h

/-- C1 (corrected).  For every gradient-mode config whose weights are one
entry of 1 per color (the only weights the writer can round-trip, since it
never serializes weights), with a nonempty list of 8-bit colors, and whose
target-file entries are as the parser itself produces them (nonempty, not
starting with `'['`, newline-free after the first character) with the last
entry not ending in whitespace (`str::trim` would eat trailing whitespace
of the final line), writing the config with `write_config` and re-parsing
the written text with `parse_config` yields exactly the same config. -/
theorem c1_roundtrip_amended (cc : Color) (cols : List Color) (tfs : List Str) (ov : Bool)
    (hcc : cc.valid) (hcols : colorsValidB cols = true) (hne : cols ≠ [])
    (htf : ∀ e ∈ tfs, targetEntryOkB e = true) (hlast : lastEntryOkB tfs = true) :
    parseConfig (writeConfig (.gradientConfig
        ⟨cc, cols, List.replicate cols.length 1, tfs, ov⟩))
      = .ok (.gradientConfig ⟨cc, cols, List.replicate cols.length 1, tfs, ov⟩) := by
  cases cols with
  | nil => exact absurd rfl hne
  | cons c0 cols'' =>
  have hvl := colorsValidB_spec _ hcols
  rcases List.eq_nil_or_concat tfs with htfs0 | ⟨init, e, htfse⟩
  · -- no target files: the written text ends with "[target_files]" after trim
    subst htfs0
    have htrim : rustTrim (writeConfig (.gradientConfig
        ⟨cc, c0 :: cols'', List.replicate (c0 :: cols'').length 1, [], ov⟩))
        = "[mode]\ngradient\n[overwrite]\n".toList ++ (boolStr ov ++
          ("\n[current_color]\n".toList ++ (displayColor cc ++ ("\n[colors]\n".toList ++
          ((displayColor c0 ++ nl) ++ (concatAll (cols''.map (fun c => displayColor c ++ nl))
            ++ "[target_files]".toList)))))) := by
      have hE : writeConfig (.gradientConfig
          ⟨cc, c0 :: cols'', List.replicate (c0 :: cols'').length 1, [], ov⟩)
          = ('[' :: (("mode]\ngradient\n[overwrite]\n".toList ++ (boolStr ov ++
            ("\n[current_color]\n".toList ++ (displayColor cc ++ ("\n[colors]\n".toList ++
            ((displayColor c0 ++ nl) ++ (concatAll (cols''.map (fun c => displayColor c ++ nl))
              ++ "[target_files".toList))))))) ++ [']'])) ++ ['\n'] := by
        simp only [writeConfig, writeGradient, List.map_nil, concatAll, List.map_cons,
          List.append_assoc, List.cons_append, List.append_nil]
        rfl
      rw [hE, rustTrim_shape _ _ (by decide)]
      simp only [List.append_assoc, List.cons_append]
      rfl
    unfold parseConfig
    rw [htrim, runh_mode, runh_ov_current, run_current_line_colors_header cc hcc,
      run_first_color_chunk c0 (hvl c0 (by simp)),
      run_colors_lines cols'' (fun c hc => hvl c (by simp [hc])),
      run_chunk_targets_header_eof]
    rfl
  · -- at least one target file: the final entry is flushed at end of input
    rw [List.concat_eq_append] at htfse
    subst htfse
    have he : targetEntryOkB e = true := htf e (by simp)
    obtain ⟨c0e, cse, hee, -, -⟩ := targetEntryOk_spec e he
    have he0 : e ≠ [] := by rw [hee]; simp
    have hlaste : isRustWhitespace (e.getLast he0) = false := by
      simp only [lastEntryOkB, List.getLast?_concat] at hlast
      rw [List.getLast?_eq_getLast e he0] at hlast
      simp only [Bool.not_eq_true'] at hlast
      exact hlast
    have hsplit : e.dropLast ++ [e.getLast he0] = e := List.dropLast_append_getLast he0
    have htrim : rustTrim (writeConfig (.gradientConfig
        ⟨cc, c0 :: cols'', List.replicate (c0 :: cols'').length 1, init ++ [e], ov⟩))
        = "[mode]\ngradient\n[overwrite]\n".toList ++ (boolStr ov ++
          ("\n[current_color]\n".toList ++ (displayColor cc ++ ("\n[colors]\n".toList ++
          ((displayColor c0 ++ nl) ++ (concatAll (cols''.map (fun c => displayColor c ++ nl))
            ++ ("[target_files]\n".toList ++ (concatAll (init.map (fun t => t ++ nl))
              ++ e)))))))) := by
      have hE : writeConfig (.gradientConfig
          ⟨cc, c0 :: cols'', List.replicate (c0 :: cols'').length 1, init ++ [e], ov⟩)
          = ('[' :: (("mode]\ngradient\n[overwrite]\n".toList ++ (boolStr ov ++
            ("\n[current_color]\n".toList ++ (displayColor cc ++ ("\n[colors]\n".toList ++
            ((displayColor c0 ++ nl) ++ (concatAll (cols''.map (fun c => displayColor c ++ nl))
              ++ ("[target_files]\n".toList ++ (concatAll (init.map (fun t => t ++ nl))
                ++ e.dropLast))))))))) ++ [e.getLast he0])) ++ ['\n'] := by
        conv_lhs => rw [show (init ++ [e] : List Str)
          = init ++ [e.dropLast ++ [e.getLast he0]] from by rw [hsplit]]
        simp only [writeConfig, writeGradient, List.map_append, concatAll_append,
          List.map_nil, List.map_cons, concatAll, List.append_assoc, List.cons_append,
          List.append_nil]
        rfl
      rw [hE, rustTrim_shape _ _ hlaste]
      simp only [List.append_assoc, List.cons_append]
      rw [show (e.dropLast ++ [e.getLast he0] : Str) = e from hsplit]
      rfl
    unfold parseConfig
    rw [htrim, runh_mode, runh_ov_current, run_current_line_colors_header cc hcc,
      run_first_color_chunk c0 (hvl c0 (by simp)),
      run_colors_lines cols'' (fun c hc => hvl c (by simp [hc])),
      runh_targets, run_target_lines init (fun x hx => htf x (by simp [hx])),
      run_final_entry e he]
    simp only [flush_nonempty_target e he]
    rfl

/-- C1 counterexample.  The config text with a weighted colors line
`3#aabbcc` parses to a gradient config with weights `[3]`; writing that
config and re-parsing the written text yields weights `[1]` — the writer
never serializes weights — so the round trip does not preserve every
field. -/
theorem c1_roundtrip_counterexample :
    parseConfig "[mode]\ngradient\n[current_color]\n#010203\n[colors]\n3#aabbcc\n[target_files]\nf".toList
        = .ok (.gradientConfig ⟨⟨1, 2, 3⟩, [⟨170, 187, 204⟩], [3], [['f']], false⟩)
    ∧ parseConfig (writeConfig (.gradientConfig ⟨⟨1, 2, 3⟩, [⟨170, 187, 204⟩], [3], [['f']],
        false⟩))
        = .ok (.gradientConfig ⟨⟨1, 2, 3⟩, [⟨170, 187, 204⟩], [1], [['f']], false⟩)
    ∧ Config.gradientConfig ⟨⟨1, 2, 3⟩, [⟨170, 187, 204⟩], [3], [['f']], false⟩
        ≠ Config.gradientConfig ⟨⟨1, 2, 3⟩, [⟨170, 187, 204⟩], [1], [['f']], false⟩ := by
  refine ⟨by decide, by decide, by decide⟩

theorem c1_roundtrip_witness :
    parseConfig (writeConfig (.gradientConfig
        ⟨⟨1, 2, 3⟩, [⟨170, 187, 204⟩], List.replicate 1 1, [['f']], false⟩))
      = .ok (.gradientConfig ⟨⟨1, 2, 3⟩, [⟨170, 187, 204⟩], List.replicate 1 1, [['f']],
          false⟩) :=
  c1_roundtrip_amended ⟨1, 2, 3⟩ [⟨170, 187, 204⟩] [['f']] false (by decide) (by decide)
    (by decide) (by decide) (by decide)

end Tran
